import Mathlib

/-!
Verification of the CP-SAT scheduling core of `src/solver/solver.py` against
its natural-language specification.

The Python module is shallowly embedded:

* Integer arithmetic of Python (`//`, `%`, truncating `int(...)`) is modelled
  by `Int.fdiv` / `Int.emod` / `Int.tdiv`.
* Python `float` inputs (`maxHoursPerWeek`) are modelled by an exact
  numerator/denominator pair of integers; `int(x * 60)` becomes exact
  truncated integer division.  (The soft-coverage fair-share bound, which is
  computed with genuine IEEE-754 double rounding in the source, is modelled
  by the corresponding exact rational arithmetic; see `softMinCoverage`.)
* `time_to_minutes` raises `ValueError` on unparseable strings; this is
  modelled by an `Option` result, `none` standing for the raised exception,
  which the build pipeline propagates (the source has no `try/except`).
* A CP-SAT model is embedded as an executable satisfaction predicate
  `modelSat` over an explicit assignment of every decision variable; a
  solution extracted from a solve that returned `success = true` is exactly
  an assignment with `modelSat ... = true`.  Auxiliary CP variables whose
  constraints pin them uniquely (`end`, `prov`, `both`, `has_billable`,
  `uncov`) are replaced by their forced values; their defining constraints
  are kept as conditions on the remaining variables wherever they restrict
  the feasible set.
* The solve orchestrator `build_and_solve` is embedded with the CP-SAT
  search abstracted as an oracle parameter: everything up to and including
  model construction is concrete, the call into the solver is opaque.
-/

namespace Scheduling

/-! ### Time parsing and slot arithmetic (`time_to_minutes` and friends) -/

/-- Parse a non-empty all-digit string as a natural number
(the fragment of Python `int(...)` exercised by "HH:MM" fields). -/
def parseNatDigits (s : List Char) : Option Nat :=
  if s.isEmpty then none
  else s.foldl
    (fun acc c => acc.bind fun n => if c.isDigit then some (n * 10 + (c.toNat - 48)) else none)
    (some 0)

/-- Python `int(...)` on a (possibly sign-prefixed) decimal string. -/
def parseIntStr (s : List Char) : Option Int :=
  match s with
  | '-' :: rest => (parseNatDigits rest).map (fun n => -(n : Int))
  | _ => (parseNatDigits s).map (fun n => (n : Int))

/-- `time_to_minutes` from the source.  `none` models the `ValueError`
raised when the string does not split into two `int(...)`-parseable parts. -/
def time_to_minutes (t : String) : Option Int :=
  match t.toList.splitOn ':' with
  | [hs, ms] =>
    match parseIntStr hs, parseIntStr ms with
    | some h, some m => some (h * 60 + m)
    | _, _ => none
  | _ => none

/-- Python floor division `//` on integers. -/
def pyFloorDiv (a b : Int) : Int := Int.fdiv a b

/-- The source's ceiling-division idiom `-(-a // b)`. -/
def pyCeilDiv (a b : Int) : Int := -(pyFloorDiv (-a) b)

/-- `minutes_to_time`: zero-padded `"HH:MM"` rendering. -/
def pad2 (n : Int) : String :=
  if n < 10 then "0" ++ toString n else toString n

def minutes_to_time (mins : Int) : String :=
  pad2 (pyFloorDiv mins 60) ++ ":" ++ pad2 (Int.emod mins 60)

def SLOT_SIZE : Int := 15

/-- `slot_to_time` from the source. -/
def slot_to_time (slot : Int) (opStartMin : Int) : String :=
  minutes_to_time (opStartMin + slot * SLOT_SIZE)

/-- `time_to_slot` from the source; `none` models the raised `ValueError`. -/
def time_to_slot (t : String) (opStartMin : Int) : Option Int :=
  (time_to_minutes t).map (fun m => pyFloorDiv (m - opStartMin) SLOT_SIZE)

/-! ### Data model (`models.py`) -/

structure AlliedHealthNeed where
  type : String
  specificDays : List String
  startTime : String
  endTime : String
  preferredProviderId : Option String := none
deriving DecidableEq, Inhabited, Repr

/-- `InsuranceQualification`.  `maxHoursPerWeek` is a Python float in the
source; it is modelled by its exact rational value as a numerator /
denominator pair (denominator positive). -/
structure InsuranceQualification where
  id : String
  maxTherapistsPerDay : Option Int := none
  minSessionDurationMinutes : Option Int := none
  maxSessionDurationMinutes : Option Int := none
  maxHoursPerWeek : Option (Int × Int) := none
  roleHierarchyOrder : Option Int := none
deriving DecidableEq, Inhabited, Repr

structure Client where
  id : String
  name : String := ""
  teamId : Option String := none
  insuranceRequirements : List String := []
  alliedHealthNeeds : List AlliedHealthNeed := []
deriving DecidableEq, Inhabited, Repr

structure Therapist where
  id : String
  name : String := ""
  role : String
  teamId : Option String := none
  qualifications : List String := []
deriving DecidableEq, Inhabited, Repr

structure Callout where
  entityType : String
  entityId : String
  startTime : String
  endTime : String
deriving DecidableEq, Inhabited, Repr

structure SolverConfig where
  operatingHoursStart : String
  operatingHoursEnd : String
  idealLunchWindowStart : String
  idealLunchWindowEndForStart : String
  defaultRoleRank : List (String × Int) := []
  slotSizeMinutes : Int := 15
deriving DecidableEq, Inhabited, Repr

/-- `SolveRequest` (warm-start `initialSchedule` is omitted: solver hints
change no constraint, hence no feasible set and no extracted solution). -/
structure SolveRequest where
  clients : List Client
  therapists : List Therapist
  insuranceQualifications : List InsuranceQualification
  day : String
  callouts : List Callout := []
  otherDayMinutesPerClient : List (String × Int) := []
  config : SolverConfig
deriving DecidableEq, Inhabited, Repr

/-- Python `dict.get(key, default)` for the string-keyed maps
(last binding wins, as in a Python dict built from the input). -/
def dictGetD (m : List (String × Int)) (k : String) (d : Int) : Int :=
  m.foldl (fun acc p => if p.1 == k then p.2 else acc) d

/-- `{x.id: i for i, x in enumerate(xs)}.get(key)`: index of the last
element carrying the id. -/
def lastIdxOf (ids : List String) (x : String) : Option Nat :=
  ids.enum.foldl (fun acc p => if p.2 == x then some p.1 else acc) none

/-! ### Per-client / per-therapist helper functions from the source -/

/-- `get_role_rank`: first qualification whose id equals the role and has a
`roleHierarchyOrder` wins, else the default-rank map, else `-1`. -/
def get_role_rank (role : String) (iqs : List InsuranceQualification)
    (defaultRanks : List (String × Int)) : Int :=
  match iqs.find? (fun iq => iq.id == role && iq.roleHierarchyOrder.isSome) with
  | some iq => iq.roleHierarchyOrder.getD (-1)
  | none => dictGetD defaultRanks role (-1)

/-- `meets_insurance` from the source. -/
def meets_insurance (t : Therapist) (c : Client) (iqs : List InsuranceQualification)
    (defaultRanks : List (String × Int)) : Bool :=
  if c.insuranceRequirements.isEmpty then true
  else c.insuranceRequirements.all fun reqId =>
    t.qualifications.contains reqId
    || (let requiredRank := get_role_rank reqId iqs defaultRanks
        let therapistRank := get_role_rank t.role iqs defaultRanks
        therapistRank ≥ requiredRank && requiredRank ≠ -1)
    || t.role == reqId

/-- `get_max_providers`. -/
def get_max_providers (c : Client) (iqs : List InsuranceQualification) : Int :=
  c.insuranceRequirements.foldl
    (fun maxP reqId =>
      iqs.foldl
        (fun maxP q =>
          match q.maxTherapistsPerDay with
          | some v => if q.id == reqId then min maxP v else maxP
          | none => maxP)
        maxP)
    999

/-- `get_min_duration_minutes` (including its first-custom-overwrites quirk). -/
def get_min_duration_minutes (c : Client) (iqs : List InsuranceQualification) : Int :=
  (c.insuranceRequirements.foldl
    (fun st reqId =>
      iqs.foldl
        (fun st q =>
          match q.minSessionDurationMinutes with
          | some v =>
            if q.id == reqId && v > 0 then
              if !st.2 || v > st.1 then (v, true) else st
            else st
          | none => st)
        st)
    ((60 : Int), false)).1

/-- `get_max_duration_minutes` (mirror image of the minimum). -/
def get_max_duration_minutes (c : Client) (iqs : List InsuranceQualification) : Int :=
  (c.insuranceRequirements.foldl
    (fun st reqId =>
      iqs.foldl
        (fun st q =>
          match q.maxSessionDurationMinutes with
          | some v =>
            if q.id == reqId && v > 0 then
              if !st.2 || v < st.1 then (v, true) else st
            else st
          | none => st)
        st)
    ((180 : Int), false)).1

/-- Python `int(maxHoursPerWeek * 60)` on the exact rational value
`num/den`: truncation toward zero. -/
def hoursTimes60 (q : Int × Int) : Int := Int.tdiv (60 * q.1) q.2

/-- `get_max_weekly_minutes`. -/
def get_max_weekly_minutes (c : Client) (iqs : List InsuranceQualification) : Int :=
  c.insuranceRequirements.foldl
    (fun maxM reqId =>
      iqs.foldl
        (fun maxM q =>
          match q.maxHoursPerWeek with
          | some v => if q.id == reqId then min maxM (hoursTimes60 v) else maxM
          | none => maxM)
        maxM)
    999999

/-- `_team_tier` from `_solve_with_coverage_mode`. -/
def team_tier (tRole : String) (tTeam : Option String) (cTeam : Option String) : Int :=
  match cTeam with
  | none => 0
  | some ct =>
    let same := match tTeam with
      | some tt => tt == ct
      | none => false
    let isBcba := tRole == "BCBA"
    if same && !isBcba then 0
    else if !same && !isBcba then (if tRole == "BT" then 99 else 1)
    else if same && isBcba then 2
    else 3

/-! ### Stable sorting

Python's `list.sort(key=...)` is a stable ascending sort; a stable ascending
sort by a key is uniquely determined, so a stable insertion sort is a
faithful model. -/

/-- Insert `x` into the sorted list `l`, before the first element whose key
is not strictly smaller (so elements with equal keys keep their original
order: an earlier element stays in front). -/
def stableInsert (key : α → Int × Int) (x : α) : List α → List α
  | [] => [x]
  | y :: ys =>
    if key y ≤ key x && key y ≠ key x then y :: stableInsert key x ys
    else x :: y :: ys

/-- Stable ascending insertion sort by a lexicographic integer-pair key. -/
def stableSortByKey (key : α → Int × Int) : List α → List α
  | [] => []
  | x :: xs => stableInsert key x (stableSortByKey key xs)

/-! ### Eligibility pre-computation (`_solve_with_coverage_mode`, lines 201–221) -/

/-- The unsorted eligible `(therapist index, tier)` pairs for one client:
non-OT/SLP role, passes insurance, not a cross-team BT (`tier < 99`). -/
def eligibleRaw (therapists : List Therapist) (c : Client)
    (iqs : List InsuranceQualification) (defaultRanks : List (String × Int)) :
    List (Nat × Int) :=
  (List.range therapists.length).filterMap fun ti =>
    let t := therapists.getD ti default
    if t.role == "OT" || t.role == "SLP" then none
    else if meets_insurance t c iqs defaultRanks then
      let tier := team_tier t.role t.teamId c.teamId
      if tier ≥ 99 then none else some (ti, tier)
    else none

/-- The sorted eligible pairs for one client: tier ascending, then role rank
ascending (a stable sort, exactly as Python's `list.sort`). -/
def eligibleInit (therapists : List Therapist) (c : Client)
    (iqs : List InsuranceQualification) (defaultRanks : List (String × Int)) :
    List (Nat × Int) :=
  stableSortByKey
    (fun x => (x.2, get_role_rank (therapists.getD x.1 default).role iqs defaultRanks))
    (eligibleRaw therapists c iqs defaultRanks)

/-! ### Callout blackout computation (lines 244–261)

`none` models the `ValueError` raised by `time_to_minutes` on an
unparseable callout time, which the source does not catch. -/

/-- Process one callout against the accumulated per-therapist /
per-client blocked-range tables. -/
def applyCallout (opStart numSlots : Int) (tIds cIds : List String)
    (st : List (List (Int × Int)) × List (List (Int × Int))) (co : Callout) :
    Option (List (List (Int × Int)) × List (List (Int × Int))) :=
  match time_to_minutes co.startTime, time_to_minutes co.endTime with
  | some sm, some em =>
    let s := max 0 (pyFloorDiv (sm - opStart) SLOT_SIZE)
    let e := min numSlots (pyCeilDiv (em - opStart) SLOT_SIZE)
    if e ≤ s then some st
    else if co.entityType == "therapist" then
      match lastIdxOf tIds co.entityId with
      | some ti => some (st.1.set ti (st.1.getD ti [] ++ [(s, e)]), st.2)
      | none => some st
    else
      match lastIdxOf cIds co.entityId with
      | some ci => some (st.1, st.2.set ci (st.2.getD ci [] ++ [(s, e)]))
      | none => some st
  | _, _ => none

/-- Fold all callouts into blocked-range tables, propagating the exception. -/
def calloutBlocked (opStart numSlots : Int) (tIds cIds : List String)
    (cos : List Callout) :
    Option (List (List (Int × Int)) × List (List (Int × Int))) :=
  cos.foldlM (applyCallout opStart numSlots tIds cIds)
    (List.replicate tIds.length [], List.replicate cIds.length [])

/-! ### Allied-health materialization (lines 364–434) -/

structure AhEntry where
  ci : Nat
  startSlot : Int
  length : Int
  sessionType : String
  eligibleTis : List Nat
deriving DecidableEq, Inhabited, Repr

/-- Process one allied-health need of client `ci`.  `none` is the raised
exception; `some none` means the need is skipped; `some (some e)` is a
materialized entry. -/
def buildAhEntry (day : String) (opStart numSlots : Int)
    (therapists : List Therapist) (maxWeekly otherMins : Int)
    (ci : Nat) (need : AlliedHealthNeed) : Option (Option AhEntry) :=
  if !(need.specificDays.contains day) then some none
  else if need.startTime == "" || need.endTime == "" then some none
  else
    match time_to_minutes need.startTime, time_to_minutes need.endTime with
    | some startMin, some endMin =>
      if pyFloorDiv (startMin - opStart) SLOT_SIZE < 0 ||
          pyFloorDiv (startMin - opStart) SLOT_SIZE +
            pyCeilDiv (endMin - startMin) SLOT_SIZE > numSlots then some none
      else if otherMins + pyCeilDiv (endMin - startMin) SLOT_SIZE * SLOT_SIZE >
          maxWeekly then some none
      else
        some (some
          { ci := ci, startSlot := pyFloorDiv (startMin - opStart) SLOT_SIZE,
            length := pyCeilDiv (endMin - startMin) SLOT_SIZE,
            sessionType := "AlliedHealth_" ++ need.type,
            eligibleTis := (List.range therapists.length).filter
              (fun ti => (therapists.getD ti default).role == need.type) })
    | _, _ => none

/-- All allied-health entries of one client, in need order (the inner
`for need_idx, need in enumerate(...)` loop). -/
def clientAhEntries (day : String) (opStart numSlots : Int)
    (therapists : List Therapist) (maxWeekly otherMins : Int)
    (ci : Nat) : List AlliedHealthNeed → Option (List AhEntry)
  | [] => some []
  | need :: rest =>
    match buildAhEntry day opStart numSlots therapists maxWeekly otherMins ci need with
    | none => none
    | some none => clientAhEntries day opStart numSlots therapists maxWeekly otherMins ci rest
    | some (some e) =>
      (clientAhEntries day opStart numSlots therapists maxWeekly otherMins ci rest).map
        (fun es => e :: es)

/-- All allied-health entries over the enumerated client list (the outer
`for ci, c in enumerate(clients)` loop). -/
def allAhEntries (day : String) (opStart numSlots : Int)
    (therapists : List Therapist) (iqs : List InsuranceQualification)
    (otherMap : List (String × Int)) : List (Nat × Client) → Option (List AhEntry)
  | [] => some []
  | (ci, c) :: rest =>
    match clientAhEntries day opStart numSlots therapists
        (get_max_weekly_minutes c iqs) (dictGetD otherMap c.id 0)
        ci c.alliedHealthNeeds with
    | none => none
    | some es =>
      (allAhEntries day opStart numSlots therapists iqs otherMap rest).map
        (fun rest2 => es ++ rest2)

/-! ### The assembled model data -/

/-- Everything `_solve_with_coverage_mode` derives from the request before
creating CP variables.  `capNum / capDen` is the exact value of the Python
float `capacity_ratio`. -/
structure ModelData where
  numC : Nat
  numT : Nat
  numSlots : Int
  opStart : Int
  isWeekend : Bool
  eligiblePairs : List (List Nat)
  minDurSlots : List Int
  maxDurSlots : List Int
  remainingWeeklySlots : List Int
  therapistBlocked : List (List (Int × Int))
  clientBlocked : List (List (Int × Int))
  ahEntries : List AhEntry
  lunchWindowStart : Int
  lunchWindowEnd : Int
  clientAvail : List Int
  maxProv : List Int
  capNum : Int
  capDen : Int
deriving DecidableEq, Inhabited, Repr

/-- Sum of a blocked-range list's raw lengths (overlaps double-counted,
exactly as in the pruning step of the source). -/
def rangeLenSum (rs : List (Int × Int)) : Int :=
  rs.foldl (fun acc r => acc + (r.2 - r.1)) 0

/-- Number of slots of `[0, numSlots)` covered by some range
(the `client_slot_blocked` boolean array, so overlaps are de-duplicated). -/
def blockedSlotCount (numSlots : Int) (rs : List (Int × Int)) : Int :=
  ((List.range numSlots.toNat).filter
    (fun s => rs.any (fun r => decide (r.1 ≤ (s : Int)) && decide ((s : Int) < r.2)))).length

/-- The pure part of the model-data pipeline, once every time string has
parsed and the callout / allied-health passes have succeeded. -/
def mkModelDataCore (req : SolveRequest) (ops lws lwe numSlots : Int)
    (tBlocked cBlocked : List (List (Int × Int))) (ahEntries : List AhEntry) :
    ModelData :=
  let clients := req.clients
  let therapists := req.therapists
  let iqs := req.insuranceQualifications
  let defaultRanks := req.config.defaultRoleRank
  let numC := clients.length
  let numT := therapists.length
  let isFullyBlocked := fun ti => decide (rangeLenSum (tBlocked.getD ti []) ≥ numSlots)
  let clientAvail := (List.range numC).map (fun ci =>
    let ahCov := (ahEntries.filter (fun e => e.ci == ci)).foldl
      (fun acc e => acc + e.length) 0
    max 0 (numSlots - blockedSlotCount numSlots (cBlocked.getD ci []) - ahCov))
  let totalAvail := clientAvail.foldl (· + ·) 0
  let totalCap := (numT : Int) * (numSlots - 2)
  let cap := if totalAvail ≤ 0 then ((1 : Int), (1 : Int))
    else if totalAvail ≤ totalCap then ((1 : Int), (1 : Int))
    else (totalCap, totalAvail)
  { numC := numC, numT := numT, numSlots := numSlots, opStart := ops,
    isWeekend := req.day == "Saturday" || req.day == "Sunday",
    eligiblePairs := clients.map (fun c =>
      ((eligibleInit therapists c iqs defaultRanks).filter
        (fun p => !(isFullyBlocked p.1))).map Prod.fst),
    minDurSlots := clients.map
      (fun c => max 1 (pyCeilDiv (get_min_duration_minutes c iqs) SLOT_SIZE)),
    maxDurSlots := clients.map
      (fun c => pyFloorDiv (get_max_duration_minutes c iqs) SLOT_SIZE),
    remainingWeeklySlots := clients.map (fun c =>
      pyFloorDiv
        (max 0 (get_max_weekly_minutes c iqs - dictGetD req.otherDayMinutesPerClient c.id 0))
        SLOT_SIZE),
    therapistBlocked := tBlocked, clientBlocked := cBlocked,
    ahEntries := ahEntries,
    lunchWindowStart := max 0 (pyFloorDiv (lws - ops) SLOT_SIZE),
    lunchWindowEnd := min (numSlots - 2) (pyFloorDiv (lwe - ops) SLOT_SIZE),
    clientAvail := clientAvail,
    maxProv := clients.map (fun c => get_max_providers c iqs),
    capNum := cap.1, capDen := cap.2 }

/-- Build the model data from a request: the whole pre-variable pipeline of
`_solve_with_coverage_mode`.  `none` models an uncaught `ValueError` from
`time_to_minutes`. -/
def mkModelData (req : SolveRequest) : Option ModelData :=
  match time_to_minutes req.config.operatingHoursStart,
        time_to_minutes req.config.operatingHoursEnd,
        time_to_minutes req.config.idealLunchWindowStart,
        time_to_minutes req.config.idealLunchWindowEndForStart with
  | some ops, some ope, some lws, some lwe =>
    match calloutBlocked ops (pyFloorDiv (ope - ops) SLOT_SIZE)
        (req.therapists.map Therapist.id) (req.clients.map Client.id)
        req.callouts with
    | none => none
    | some blocked =>
      match allAhEntries req.day ops (pyFloorDiv (ope - ops) SLOT_SIZE)
          req.therapists req.insuranceQualifications req.otherDayMinutesPerClient
          req.clients.enum with
      | none => none
      | some ahEntries =>
        some (mkModelDataCore req ops lws lwe (pyFloorDiv (ope - ops) SLOT_SIZE)
          blocked.1 blocked.2 ahEntries)
  | _, _, _, _ => none

/-- Eligible therapist indices of client `ci` (after pruning). -/
def eligOf (md : ModelData) (ci : Nat) : List Nat :=
  md.eligiblePairs.getD ci []

/-- Number of session indices `k` created for each eligible pair of client
`ci`: `0` on weekends or for zero-budget clients (the `break`), else
`MAX_SESSIONS_PER_PAIR = 2`. -/
def kCount (md : ModelData) (ci : Nat) : Nat :=
  if md.isWeekend || md.remainingWeeklySlots.getD ci 0 ≤ 0 then 0 else 2

/-! ### Assignments and the satisfaction predicate

An `Assignment` gives a value to every decision variable of the model
(indices outside the variable ranges are simply never consulted).
`modelSat md hard a = true` says the assignment satisfies every constraint
`_solve_with_coverage_mode` adds; the solution behind any `success = true`
response is exactly such an assignment. -/

structure Assignment where
  abaActive : Nat → Nat → Nat → Bool
  abaStart : Nat → Nat → Nat → Int
  abaDur : Nat → Nat → Nat → Int
  ahChosen : Nat → Nat → Bool
  lunchActive : Nat → Bool
  lunchStart : Nat → Int

def bLE (x y : Int) : Bool := decide (x ≤ y)
def bLT (x y : Int) : Bool := decide (x < y)

/-- Index of the first occurrence of `x` (the `ti_to_local` /
`eligible_tis.index(ti)` lookups; the lists involved are duplicate-free, so
"first" is exact). -/
def firstIdx : List Nat → Nat → Option Nat
  | [], _ => none
  | y :: ys, x => if y == x then some 0 else (firstIdx ys x).map (· + 1)

/-- An (optional) interval: presence literal, start, end. -/
def overlapB (a b : Bool × Int × Int) : Bool :=
  a.1 && b.1 && bLT a.2.1 b.2.2 && bLT b.2.1 a.2.2

/-- `add_no_overlap`: present intervals are pairwise non-overlapping. -/
def noOverlapPool : List (Bool × Int × Int) → Bool
  | [] => true
  | iv :: rest => rest.all (fun jv => !(overlapB iv jv)) && noOverlapPool rest

/-- Variable-domain constraints of the ABA session variables
(`start`, `dur`, `end = start + dur` all in `[0, num_slots]`). -/
def abaDomOk (md : ModelData) (a : Assignment) : Bool :=
  (List.range md.numC).all fun ci =>
    (List.range (eligOf md ci).length).all fun tl =>
      (List.range (kCount md ci)).all fun k =>
        bLE 0 (a.abaStart ci tl k) && bLE (a.abaStart ci tl k) md.numSlots &&
        bLE 0 (a.abaDur ci tl k) && bLE (a.abaDur ci tl k) md.numSlots &&
        bLE 0 (a.abaStart ci tl k + a.abaDur ci tl k) &&
        bLE (a.abaStart ci tl k + a.abaDur ci tl k) md.numSlots

/-- Duration bounds when active; duration `0` when inactive. -/
def abaDurOk (md : ModelData) (a : Assignment) : Bool :=
  (List.range md.numC).all fun ci =>
    (List.range (eligOf md ci).length).all fun tl =>
      (List.range (kCount md ci)).all fun k =>
        if a.abaActive ci tl k then
          bLE (md.minDurSlots.getD ci 0) (a.abaDur ci tl k) &&
          bLE (a.abaDur ci tl k) (md.maxDurSlots.getD ci 0)
        else a.abaDur ci tl k == 0

/-- Lunch-start domain `[window_start, max(window_start, window_end)]`. -/
def lunchDomOk (md : ModelData) (a : Assignment) : Bool :=
  (List.range md.numT).all fun ti =>
    bLE md.lunchWindowStart (a.lunchStart ti) &&
    bLE (a.lunchStart ti) (max md.lunchWindowStart md.lunchWindowEnd)

def intRange (lo hi : Int) : List Int :=
  (List.range (hi - lo).toNat).map (fun i => lo + (i : Int))

/-- `add_cumulative` over the lunch intervals with demand 1 and capacity
`max(1, num_t // 4)`. -/
def lunchCumOk (md : ModelData) (a : Assignment) : Bool :=
  (intRange md.lunchWindowStart (max md.lunchWindowStart md.lunchWindowEnd + 2)).all fun s =>
    (List.range md.numT).countP
      (fun ti => a.lunchActive ti && bLE (a.lunchStart ti) s && bLT s (a.lunchStart ti + 2))
      ≤ max 1 (md.numT / 4)

/-- The interval pool of therapist `ti`: their ABA intervals, the AH
candidate intervals they appear in, their lunch, and their callout
blackouts (mandatory). -/
def therapistPool (md : ModelData) (a : Assignment) (ti : Nat) :
    List (Bool × Int × Int) :=
  ((List.range md.numC).flatMap fun ci =>
    match firstIdx (eligOf md ci) ti with
    | some tl =>
      (List.range (kCount md ci)).map fun k =>
        (a.abaActive ci tl k, a.abaStart ci tl k,
         a.abaStart ci tl k + a.abaDur ci tl k)
    | none => [])
  ++ (md.ahEntries.enum.flatMap fun p =>
    match firstIdx p.2.eligibleTis ti with
    | some idx => [(a.ahChosen p.1 idx, p.2.startSlot, p.2.startSlot + p.2.length)]
    | none => [])
  ++ [(a.lunchActive ti, a.lunchStart ti, a.lunchStart ti + 2)]
  ++ (md.therapistBlocked.getD ti []).map (fun r => (true, r.1, r.2))

/-- The interval pool of client `ci`: all their ABA intervals, all AH
candidate intervals of their needs, and their callout blackouts. -/
def clientPool (md : ModelData) (a : Assignment) (ci : Nat) :
    List (Bool × Int × Int) :=
  ((List.range (eligOf md ci).length).flatMap fun tl =>
    (List.range (kCount md ci)).map fun k =>
      (a.abaActive ci tl k, a.abaStart ci tl k,
       a.abaStart ci tl k + a.abaDur ci tl k))
  ++ (md.ahEntries.enum.flatMap fun p =>
    if p.2.ci == ci then
      (List.range p.2.eligibleTis.length).map fun idx =>
        (a.ahChosen p.1 idx, p.2.startSlot, p.2.startSlot + p.2.length)
    else [])
  ++ (md.clientBlocked.getD ci []).map (fun r => (true, r.1, r.2))

def noOverlapTherOk (md : ModelData) (a : Assignment) : Bool :=
  (List.range md.numT).all fun ti => noOverlapPool (therapistPool md a ti)

def noOverlapClientOk (md : ModelData) (a : Assignment) : Bool :=
  (List.range md.numC).all fun ci => noOverlapPool (clientPool md a ci)

/-- Forced value of the `prov_{c,t}` boolean. -/
def provVal (md : ModelData) (a : Assignment) (ci tl : Nat) : Bool :=
  (List.range (kCount md ci)).any fun k => a.abaActive ci tl k

/-- Max-providers block: consistency of the AH linkage into existing `prov`
variables, plus the cap `Σ prov ≤ max` when the client has one. -/
def maxProvidersOk (md : ModelData) (a : Assignment) : Bool :=
  (List.range md.numC).all fun ci =>
    (md.ahEntries.enum.all fun p =>
      !(p.2.ci == ci) ||
      (List.range p.2.eligibleTis.length).all fun idx =>
        match firstIdx (eligOf md ci) (p.2.eligibleTis.getD idx 0) with
        | some tl => !(a.ahChosen p.1 idx) || provVal md a ci tl
        | none => true)
    &&
    (let ahOnlyVars := md.ahEntries.enum.foldl
        (fun acc p =>
          if p.2.ci == ci then
            acc + (List.range p.2.eligibleTis.length).countP (fun idx =>
              (firstIdx (eligOf md ci) (p.2.eligibleTis.getD idx 0)).isNone)
          else acc) 0
     let provSum := ((List.range (eligOf md ci).length).countP
          (fun tl => provVal md a ci tl) : Int)
        + (md.ahEntries.enum.foldl
            (fun acc p =>
              if p.2.ci == ci then
                acc + ((List.range p.2.eligibleTis.length).countP (fun idx =>
                  (firstIdx (eligOf md ci) (p.2.eligibleTis.getD idx 0)).isNone
                  && a.ahChosen p.1 idx) : Int)
              else acc) 0)
     if md.maxProv.getD ci 999 < 999 && ((eligOf md ci).length + ahOnlyVars != 0) then
       bLE provSum (md.maxProv.getD ci 999)
     else true)

/-- Total ABA duration of client `ci` (sum over the existing variables). -/
def totalAbaDur (md : ModelData) (a : Assignment) (ci : Nat) : Int :=
  ((List.range (eligOf md ci).length).map fun tl =>
    ((List.range (kCount md ci)).map fun k => a.abaDur ci tl k).foldl (· + ·) 0).foldl
    (· + ·) 0

/-- Total fixed AH slot length of client `ci` (all materialized entries,
assigned or not). -/
def ahSlotTotal (md : ModelData) (ci : Nat) : Int :=
  (md.ahEntries.filter (fun e => e.ci == ci)).foldl (fun acc e => acc + e.length) 0

/-- Weekly-minutes constraint (added only when the client has any ABA
duration variable — the `if all_durations:` guard of the source). -/
def weeklyOk (md : ModelData) (a : Assignment) : Bool :=
  (List.range md.numC).all fun ci =>
    if bLE (md.numSlots * 2) (md.remainingWeeklySlots.getD ci 0) then true
    else if !(eligOf md ci).isEmpty && kCount md ci != 0 then
      bLE (totalAbaDur md a ci + ahSlotTotal md ci) (md.remainingWeeklySlots.getD ci 0)
    else true

/-- Symmetry breaking and back-to-back gap for the session pair of each
`(client, therapist)`. -/
def pairOrderOk (md : ModelData) (a : Assignment) : Bool :=
  (List.range md.numC).all fun ci =>
    (List.range (eligOf md ci).length).all fun tl =>
      if kCount md ci < 2 then true
      else
        (!(a.abaActive ci tl 1) || a.abaActive ci tl 0) &&
        (!(a.abaActive ci tl 0 && a.abaActive ci tl 1) ||
          bLE (a.abaStart ci tl 0 + a.abaDur ci tl 0 + 1) (a.abaStart ci tl 1))

/-- Forced value of `has_billable_t`: OR of every active / chosen literal
consuming therapist `ti`. -/
def billablesAny (md : ModelData) (a : Assignment) (ti : Nat) : Bool :=
  ((List.range md.numC).any fun ci =>
    match firstIdx (eligOf md ci) ti with
    | some tl => (List.range (kCount md ci)).any fun k => a.abaActive ci tl k
    | none => false)
  || (md.ahEntries.enum.any fun p =>
    match firstIdx p.2.eligibleTis ti with
    | some idx => a.ahChosen p.1 idx
    | none => false)

/-- `lunch_active_t == has_billable_t` (and `== 0` when no billable
variable exists, which the OR over the empty list also gives). -/
def lunchLinkOk (md : ModelData) (a : Assignment) : Bool :=
  (List.range md.numT).all fun ti => a.lunchActive ti == billablesAny md a ti

/-- The soft-phase minimum coverage.  The source computes
`int(available * capacity_ratio * 0.85)` in IEEE-754 doubles; here the same
expression is evaluated in exact rational arithmetic
(`capacity_ratio = capNum/capDen`) with truncation toward zero. -/
def softMinCoverage (md : ModelData) (ci : Nat) (available : Int) : Int :=
  let floorPart := Int.tdiv (available * md.capNum * 85) (md.capDen * 100)
  min (min (max (md.minDurSlots.getD ci 0) floorPart) available)
    (md.remainingWeeklySlots.getD ci 0)

/-- Coverage constraints.  Hard phase: `Σ duration ≥ available` whenever
duration variables exist.  Soft phase: the fair-share lower bound plus the
`uncov` variable, whose domain `[0, available]` together with
`uncov = available − Σ duration` forces `Σ duration ≤ available`. -/
def coverageOk (md : ModelData) (hard : Bool) (a : Assignment) : Bool :=
  if md.isWeekend then true
  else (List.range md.numC).all fun ci =>
    let available := md.clientAvail.getD ci 0
    if bLE available 0 then true
    else
      let hasDur := !(eligOf md ci).isEmpty && kCount md ci != 0
      if hard then
        if hasDur then bLE available (totalAbaDur md a ci) else true
      else
        (if hasDur && bLT 0 (softMinCoverage md ci available) then
          bLE (softMinCoverage md ci available) (totalAbaDur md a ci)
        else true) &&
        (if hasDur then bLE (totalAbaDur md a ci) available else true)

/-- Number of billable sessions (notes) of therapist `ti`. -/
def notesCount (md : ModelData) (a : Assignment) (ti : Nat) : Nat :=
  ((List.range md.numC).foldl
    (fun acc ci =>
      match firstIdx (eligOf md ci) ti with
      | some tl => acc + (List.range (kCount md ci)).countP (fun k => a.abaActive ci tl k)
      | none => acc) 0)
  + (md.ahEntries.enum.foldl
      (fun acc p =>
        match firstIdx p.2.eligibleTis ti with
        | some idx => acc + (if a.ahChosen p.1 idx then 1 else 0)
        | none => acc) 0)

/-- `MAX_NOTES_PER_THERAPIST = 4`. -/
def maxNotesOk (md : ModelData) (a : Assignment) : Bool :=
  (List.range md.numT).all fun ti => notesCount md a ti ≤ 4

/-- `add_exactly_one` over each materialized need's choice literals. -/
def ahExactlyOneOk (md : ModelData) (a : Assignment) : Bool :=
  md.ahEntries.enum.all fun p =>
    p.2.eligibleTis.isEmpty ||
    ((List.range p.2.eligibleTis.length).countP (fun idx => a.ahChosen p.1 idx) == 1)

/-- The full constraint set of `_solve_with_coverage_mode`
(`hard = true` is the hard-coverage phase). -/
def modelSat (md : ModelData) (hard : Bool) (a : Assignment) : Bool :=
  abaDomOk md a && abaDurOk md a && lunchDomOk md a && lunchCumOk md a &&
  noOverlapTherOk md a && noOverlapClientOk md a && maxProvidersOk md a &&
  weeklyOk md a && pairOrderOk md a && lunchLinkOk md a &&
  coverageOk md hard a && maxNotesOk md a && ahExactlyOneOk md a

/-! ### Solution extraction (lines 884–945)

Entries carry slot indices; the source renders them as strings via
`slot_to_time startSlot opStart` / `slot_to_time (startSlot + durSlots)
opStart`. -/

structure ScheduleEntryE where
  sessionType : String
  clientIdx : Option Nat
  therapistIdx : Option Nat
  startSlot : Int
  durSlots : Int
deriving DecidableEq, Inhabited, Repr

/-- ABA entries: one per active session variable. -/
def extractABA (md : ModelData) (a : Assignment) : List ScheduleEntryE :=
  (List.range md.numC).flatMap fun ci =>
    (List.range (eligOf md ci).length).flatMap fun tl =>
      ((List.range (kCount md ci)).filter fun k => a.abaActive ci tl k).map fun k =>
        { sessionType := "ABA", clientIdx := some ci,
          therapistIdx := some ((eligOf md ci).getD tl 0),
          startSlot := a.abaStart ci tl k, durSlots := a.abaDur ci tl k }

/-- The therapist assigned to a materialized need: the first candidate whose
choice literal is true (`None` when no candidate existed). -/
def ahAssigned (e : AhEntry) (a : Assignment) (ai : Nat) : Option Nat :=
  ((List.range e.eligibleTis.length).find? (fun idx => a.ahChosen ai idx)).map
    (fun idx => e.eligibleTis.getD idx 0)

/-- Allied-health entries: one per materialized need, assigned or not. -/
def extractAH (md : ModelData) (a : Assignment) : List ScheduleEntryE :=
  md.ahEntries.enum.map fun p =>
    { sessionType := p.2.sessionType, clientIdx := some p.2.ci,
      therapistIdx := ahAssigned p.2 a p.1,
      startSlot := p.2.startSlot, durSlots := p.2.length }

/-- Lunch entries: one per therapist with an active lunch. -/
def extractLunch (md : ModelData) (a : Assignment) : List ScheduleEntryE :=
  ((List.range md.numT).filter fun ti => a.lunchActive ti).map fun ti =>
    { sessionType := "IndirectTime", clientIdx := none,
      therapistIdx := some ti, startSlot := a.lunchStart ti, durSlots := 2 }

def extractSchedule (md : ModelData) (a : Assignment) : List ScheduleEntryE :=
  extractABA md a ++ extractAH md a ++ extractLunch md a

/-- The entry is therapist `ti`'s lunch break. -/
def isLunchOf (ti : Nat) (e : ScheduleEntryE) : Bool :=
  e.sessionType == "IndirectTime" && e.therapistIdx == some ti

/-- The entry is a billable (ABA or allied-health) session of therapist
`ti`. -/
def isBillableOf (ti : Nat) (e : ScheduleEntryE) : Bool :=
  e.sessionType != "IndirectTime" && e.therapistIdx == some ti

/-- Well-formedness of a materialized allied-health entry (guaranteed by
construction): session type `AlliedHealth_*`, duplicate-free candidate
list, candidates in range. -/
def AhWf (numT : Nat) (e : AhEntry) : Prop :=
  (∃ t, e.sessionType = "AlliedHealth_" ++ t) ∧
  e.eligibleTis.Nodup ∧ ∀ ti ∈ e.eligibleTis, ti < numT

/-- Total scheduled slots of client `ci` in the extracted schedule
(ABA plus allied health; lunches carry no client). -/
def clientScheduledSlots (md : ModelData) (a : Assignment) (ci : Nat) : Int :=
  ((extractSchedule md a).filter (fun e => e.clientIdx == some ci)).foldl
    (fun acc e => acc + e.durSlots) 0

/-! ### Solve orchestration (`build_and_solve`, lines 107–139)

The CP-SAT search itself is abstracted as an oracle from the coverage mode
and the built model data to a response; everything else is concrete.
`none` models an uncaught exception. -/

structure SolveResponseE where
  schedule : List ScheduleEntryE
  success : Bool
  statusMessage : String
  objectiveValue : Option Int := none
  coverageMode : String := "hard"
deriving DecidableEq, Inhabited, Repr

/-- One `_solve_with_coverage_mode` attempt: parse the operating hours,
return the fixed empty-problem response before any model is built, else
build the model and hand it to the solver oracle. -/
def attemptSolve (req : SolveRequest)
    (oracle : Bool → ModelData → SolveResponseE) (hard : Bool) :
    Option SolveResponseE :=
  match time_to_minutes req.config.operatingHoursStart,
        time_to_minutes req.config.operatingHoursEnd with
  | some _, some _ =>
    if req.clients.length == 0 || req.therapists.length == 0 then
      some { schedule := [], success := true,
             statusMessage := "No clients or therapists to schedule." }
    else
      (mkModelData req).map (oracle hard)
  | _, _ => none

/-- `build_and_solve` given an abstract attempt function, also returning
the list of coverage modes attempted (`true` = hard). -/
def build_and_solve_trace (req : SolveRequest)
    (attempt : Bool → Option SolveResponseE) :
    Option SolveResponseE × List Bool :=
  match time_to_minutes req.config.operatingHoursStart,
        time_to_minutes req.config.operatingHoursEnd with
  | some ops, some ope =>
    let numSlots := pyFloorDiv (ope - ops) SLOT_SIZE
    let totalCapacity := (req.therapists.length : Int) * (numSlots - 2)
    let totalDemand := (req.clients.length : Int) * numSlots
    if totalDemand ≤ totalCapacity then
      match attempt true with
      | none => (none, [true])
      | some r =>
        if r.success then (some { r with coverageMode := "hard" }, [true])
        else
          ((attempt false).map (fun r2 => { r2 with coverageMode := "soft" }),
           [true, false])
    else
      ((attempt false).map (fun r2 => { r2 with coverageMode := "soft" }), [false])
  | _, _ => (none, [])

def build_and_solve (req : SolveRequest)
    (attempt : Bool → Option SolveResponseE) : Option SolveResponseE :=
  (build_and_solve_trace req attempt).1

/-- The composed pipeline: orchestrator over concrete attempts. -/
def buildAndSolveFull (req : SolveRequest)
    (oracle : Bool → ModelData → SolveResponseE) : Option SolveResponseE :=
  build_and_solve req (attemptSolve req oracle)

/-! ### The spec's own wording of the insurance rule (for claim C3)

The spec requires *both* ranks to differ from −1; the source only checks
the required rank.  This definition follows the spec's words and is
compared against `meets_insurance` (from the source) below. -/

def meets_insurance_spec (t : Therapist) (c : Client)
    (iqs : List InsuranceQualification) (defaultRanks : List (String × Int)) : Bool :=
  c.insuranceRequirements.all fun reqId =>
    t.qualifications.contains reqId
    || (get_role_rank t.role iqs defaultRanks ≥ get_role_rank reqId iqs defaultRanks
        && get_role_rank reqId iqs defaultRanks ≠ -1
        && get_role_rank t.role iqs defaultRanks ≠ -1)
    || t.role == reqId

/-- `ti` appears in the eligibility list computed for client `c`
(lines 204–217, before the fully-blacked-out pruning). -/
def aba_eligible (therapists : List Therapist) (c : Client)
    (iqs : List InsuranceQualification) (defaultRanks : List (String × Int))
    (ti : Nat) : Prop :=
  ti ∈ (eligibleInit therapists c iqs defaultRanks).map Prod.fst

/-! ### Concrete instances used by counterexamples and witnesses -/

def cfgStd : SolverConfig :=
  { operatingHoursStart := "09:00", operatingHoursEnd := "17:00",
    idealLunchWindowStart := "11:00", idealLunchWindowEndForStart := "13:30" }

/-- Same operating day but the lunch window opens at 11:05, which is not
on the 15-minute grid. -/
def cfgLunch5 : SolverConfig :=
  { operatingHoursStart := "09:00", operatingHoursEnd := "17:00",
    idealLunchWindowStart := "11:05", idealLunchWindowEndForStart := "13:30" }

/-- A degenerate operating window: zero slots. -/
def cfgZeroSlots : SolverConfig :=
  { operatingHoursStart := "09:00", operatingHoursEnd := "09:00",
    idealLunchWindowStart := "09:00", idealLunchWindowEndForStart := "09:00" }

/-- One client, two OT therapists (so the client's ABA-eligible list is
empty while the capacity precondition for the hard phase holds). -/
def reqEmptyElig : SolveRequest :=
  { clients := [{ id := "c1" }],
    therapists := [{ id := "t1", role := "OT" }, { id := "t2", role := "OT" }],
    insuranceQualifications := [], day := "Monday", config := cfgStd }

def mdEmptyElig : ModelData := (mkModelData reqEmptyElig).getD default

/-- The all-inactive assignment (lunch starts parked at slot 8). -/
def aIdle : Assignment :=
  { abaActive := fun _ _ _ => false, abaStart := fun _ _ _ => 0,
    abaDur := fun _ _ _ => 0, ahChosen := fun _ _ => false,
    lunchActive := fun _ => false, lunchStart := fun _ => 8 }

/-- One client with an OT need that no therapist can serve, two same-team
BTs. -/
def reqUnassignedAh : SolveRequest :=
  { clients := [{ id := "c1", teamId := some "A",
                  alliedHealthNeeds := [{ type := "OT", specificDays := ["Monday"],
                                          startTime := "10:00", endTime := "11:00" }] }],
    therapists := [{ id := "t1", role := "BT", teamId := some "A" },
                   { id := "t2", role := "BT", teamId := some "A" }],
    insuranceQualifications := [], day := "Monday", config := cfgStd }

def mdUnassignedAh : ModelData := (mkModelData reqUnassignedAh).getD default

/-- A full-coverage assignment for the two-BT single-client day: the two
therapists partition the 32 slots into four 8-slot sessions, lunching at
slots 8 and 16. -/
def aFull : Assignment :=
  { abaActive := fun _ _ _ => true,
    abaStart := fun _ tl k =>
      if tl == 0 then (if k == 0 then 0 else 16) else (if k == 0 then 8 else 24),
    abaDur := fun _ _ _ => 8,
    ahChosen := fun _ _ => false,
    lunchActive := fun _ => true,
    lunchStart := fun ti => if ti == 0 then 8 else 16 }

/-- Two same-team BTs and one client, with the off-grid lunch window. -/
def reqLunch5 : SolveRequest :=
  { clients := [{ id := "c1", teamId := some "A" }],
    therapists := [{ id := "t1", role := "BT", teamId := some "A" },
                   { id := "t2", role := "BT", teamId := some "A" }],
    insuranceQualifications := [], day := "Monday", config := cfgLunch5 }

def mdLunch5 : ModelData := (mkModelData reqLunch5).getD default

/-- Saturday; one client capped at 1 h/week holding two one-hour OT needs;
one OT therapist. -/
def reqWeekendAh : SolveRequest :=
  { clients := [{ id := "c1", insuranceRequirements := ["Q"],
                  alliedHealthNeeds := [
                    { type := "OT", specificDays := ["Saturday"],
                      startTime := "10:00", endTime := "11:00" },
                    { type := "OT", specificDays := ["Saturday"],
                      startTime := "12:00", endTime := "13:00" }] }],
    therapists := [{ id := "t1", role := "OT" }],
    insuranceQualifications := [{ id := "Q", maxHoursPerWeek := some (1, 1) }],
    day := "Saturday", config := cfgStd }

def mdWeekendAh : ModelData := (mkModelData reqWeekendAh).getD default

/-- Both needs chosen (they are forced: each has exactly one candidate),
the OT's lunch at slot 8. -/
def aWeekendAh : Assignment :=
  { abaActive := fun _ _ _ => false, abaStart := fun _ _ _ => 0,
    abaDur := fun _ _ _ => 0,
    ahChosen := fun _ _ => true,
    lunchActive := fun _ => true, lunchStart := fun _ => 8 }

/-- A callout with an unparseable start time. -/
def reqBadCallout : SolveRequest :=
  { clients := [{ id := "c1" }],
    therapists := [{ id := "t1", role := "BT" }],
    insuranceQualifications := [], day := "Monday",
    callouts := [{ entityType := "therapist", entityId := "t1",
                   startTime := "banana", endTime := "10:00" }],
    config := cfgStd }

/-- A parseable callout entirely before operating hours (out of range). -/
def coOutOfRange : Callout :=
  { entityType := "therapist", entityId := "t1",
    startTime := "07:00", endTime := "08:00" }

/-- A parseable allied-health need entirely before operating hours. -/
def needOutOfRange : AlliedHealthNeed :=
  { type := "OT", specificDays := ["Monday"],
    startTime := "07:00", endTime := "08:00" }

/-- An oracle standing for the CP-SAT search; the early-return claims must
hold whatever it answers. -/
def trivialOracle : Bool → ModelData → SolveResponseE :=
  fun _ _ => { schedule := [], success := false, statusMessage := "" }

/-- Zero clients, one therapist, zero slots: the capacity precondition
`0 ≤ 1 × (0 − 2)` fails. -/
def reqNoClientsZeroSlots : SolveRequest :=
  { clients := [], therapists := [{ id := "t1", role := "BT" }],
    insuranceQualifications := [], day := "Monday", config := cfgZeroSlots }

/-- Zero clients, one therapist, a normal day. -/
def reqNoClients : SolveRequest :=
  { clients := [], therapists := [{ id := "t1", role := "BT" }],
    insuranceQualifications := [], day := "Monday", config := cfgStd }

/-- One client, zero therapists, a normal day. -/
def reqNoTherapists : SolveRequest :=
  { clients := [{ id := "c1" }], therapists := [],
    insuranceQualifications := [], day := "Monday", config := cfgStd }

/-- Client requiring `"REQX"`, whose explicit hierarchy rank is −2; the
therapist's unknown role has rank −1. -/
def cRankEdge : Client := { id := "c1", insuranceRequirements := ["REQX"] }

def tRankEdge : Therapist := { id := "t1", role := "MYSTERY" }

def iqsRankEdge : List InsuranceQualification :=
  [{ id := "REQX", roleHierarchyOrder := some (-2) }]

/-! ## Lemmas -/

theorem stableInsert_perm (key : α → Int × Int) (x : α) (l : List α) :
    (stableInsert key x l).Perm (x :: l) := by
  induction l with
  | nil => simp [stableInsert]
  | cons y ys ih =>
    simp only [stableInsert]
    by_cases h : (key y ≤ key x && key y ≠ key x) = true
    · simp only [h, if_pos]
      exact (List.Perm.cons y ih).trans (List.Perm.swap x y ys)
    · simp only [h]
      simp

theorem stableSortByKey_perm (key : α → Int × Int) (l : List α) :
    (stableSortByKey key l).Perm l := by
  induction l with
  | nil => simp [stableSortByKey]
  | cons x xs ih =>
    exact (stableInsert_perm key x (stableSortByKey key xs)).trans (List.Perm.cons x ih)

/-! ## Claims -/

/-- Claim C2: `build_and_solve` attempts hard coverage first iff
`num_clients × num_slots ≤ num_therapists × (num_slots − 2)`; a hard
attempt that does not yield success is retried once with soft coverage; a
failed precondition goes directly to soft; the returned `coverageMode` is
`"hard"` exactly when the returned result came from a successful hard
attempt; the attempt trace is always `[hard]`, `[hard, soft]` or `[soft]`,
so no other automatic retry occurs. -/
theorem claim_C2 (req : SolveRequest) (attempt : Bool → Option SolveResponseE)
    (ops ope demand capacity : Int)
    (hs : time_to_minutes req.config.operatingHoursStart = some ops)
    (he : time_to_minutes req.config.operatingHoursEnd = some ope)
    (hd : demand = (req.clients.length : Int) * pyFloorDiv (ope - ops) SLOT_SIZE)
    (hc : capacity =
      (req.therapists.length : Int) * (pyFloorDiv (ope - ops) SLOT_SIZE - 2)) :
    ((build_and_solve_trace req attempt).2.head? = some true ↔ demand ≤ capacity) ∧
    ((build_and_solve_trace req attempt).2 = [true] ∨
     (build_and_solve_trace req attempt).2 = [true, false] ∨
     (build_and_solve_trace req attempt).2 = [false]) ∧
    (∀ r, attempt true = some r → r.success = true → demand ≤ capacity →
      build_and_solve_trace req attempt =
        (some { r with coverageMode := "hard" }, [true])) ∧
    (∀ r, attempt true = some r → r.success = false → demand ≤ capacity →
      build_and_solve_trace req attempt =
        ((attempt false).map (fun r2 => { r2 with coverageMode := "soft" }),
         [true, false])) ∧
    (¬demand ≤ capacity →
      build_and_solve_trace req attempt =
        ((attempt false).map (fun r2 => { r2 with coverageMode := "soft" }), [false])) ∧
    (∀ r, (build_and_solve_trace req attempt).1 = some r →
      (r.coverageMode = "hard" ↔
        demand ≤ capacity ∧ ∃ r0, attempt true = some r0 ∧ r0.success = true)) := by
  subst hd hc
  by_cases hcap : (req.clients.length : Int) * pyFloorDiv (ope - ops) SLOT_SIZE ≤
      (req.therapists.length : Int) * (pyFloorDiv (ope - ops) SLOT_SIZE - 2)
  · cases hat : attempt true with
    | none =>
      have key : build_and_solve_trace req attempt = (none, [true]) := by
        simp [build_and_solve_trace, hs, he, hcap, hat]
      rw [key]
      refine ⟨by simpa using hcap, Or.inl rfl, ?_, ?_, fun h => absurd hcap h, ?_⟩
      · intro r hr; cases hr
      · intro r hr; cases hr
      · intro r hr
        have hr2 : (none : Option SolveResponseE) = some r := hr
        cases hr2
    | some r =>
      by_cases hsucc : r.success = true
      · have key : build_and_solve_trace req attempt =
            (some { r with coverageMode := "hard" }, [true]) := by
          simp [build_and_solve_trace, hs, he, hcap, hat, hsucc]
        rw [key]
        refine ⟨by simpa using hcap, Or.inl rfl, ?_, ?_, fun h => absurd hcap h, ?_⟩
        · intro r2 hr2 _ _
          injection hr2 with h2
          subst h2
          rfl
        · intro r2 hr2 hfail _
          injection hr2 with h2
          subst h2
          rw [hsucc] at hfail
          cases hfail
        · intro r2 hr2
          have hr3 : some { r with coverageMode := "hard" } = some r2 := hr2
          injection hr3 with h3
          subst h3
          exact ⟨fun _ => ⟨hcap, r, rfl, hsucc⟩, fun _ => rfl⟩
      · rw [Bool.not_eq_true] at hsucc
        have key : build_and_solve_trace req attempt =
            ((attempt false).map (fun r2 => { r2 with coverageMode := "soft" }),
             [true, false]) := by
          simp [build_and_solve_trace, hs, he, hcap, hat, hsucc]
        rw [key]
        refine ⟨by simpa using hcap, Or.inr (Or.inl rfl), ?_, ?_,
          fun h => absurd hcap h, ?_⟩
        · intro r2 hr2 hsu _
          injection hr2 with h2
          subst h2
          rw [hsucc] at hsu
          cases hsu
        · intro r2 hr2 _ _
          rfl
        · intro r2 hr2
          cases hfalse : attempt false with
          | none =>
            rw [hfalse] at hr2
            have hr3 : (none : Option SolveResponseE) = some r2 := hr2
            cases hr3
          | some r3 =>
            rw [hfalse] at hr2
            have hr3 : some { r3 with coverageMode := "soft" } = some r2 := hr2
            injection hr3 with h3
            subst h3
            constructor
            · intro hmode
              have hmode2 : "soft" = "hard" := hmode
              exact absurd hmode2 (by decide)
            · rintro ⟨-, r0, hr0, hs0⟩
              injection hr0 with h0
              subst h0
              rw [hsucc] at hs0
              cases hs0
  · have key : build_and_solve_trace req attempt =
        ((attempt false).map (fun r2 => { r2 with coverageMode := "soft" }), [false]) := by
      simp [build_and_solve_trace, hs, he, hcap]
    rw [key]
    refine ⟨⟨fun h => ?_, fun h => absurd h hcap⟩,
      Or.inr (Or.inr rfl), ?_, ?_, fun _ => rfl, ?_⟩
    · have h2 : (some false : Option Bool) = some true := h
      exact absurd h2 (by decide)
    · intro r _ _ h; exact absurd h hcap
    · intro r _ _ h; exact absurd h hcap
    · intro r2 hr2
      cases hfalse : attempt false with
      | none =>
        rw [hfalse] at hr2
        have hr3 : (none : Option SolveResponseE) = some r2 := hr2
        cases hr3
      | some r3 =>
        rw [hfalse] at hr2
        have hr3 : some { r3 with coverageMode := "soft" } = some r2 := hr2
        injection hr3 with h3
        subst h3
        constructor
        · intro hmode
          have hmode2 : "soft" = "hard" := hmode
          exact absurd hmode2 (by decide)
        · rintro ⟨h, -⟩; exact absurd h hcap

/-- Witness for C2: with zero clients the precondition holds, the hard
attempt succeeds and is returned with `coverageMode = "hard"` after a
single attempt. -/
theorem claim_C2_witness :
    build_and_solve_trace reqNoClients
      (fun _ => some { schedule := [], success := true, statusMessage := "ok" }) =
    (some { schedule := [], success := true, statusMessage := "ok",
            objectiveValue := none, coverageMode := "hard" }, [true]) := by
  exact (claim_C2 reqNoClients
      (fun _ => some { schedule := [], success := true, statusMessage := "ok" })
      540 1020 0 30 (by decide) (by decide) (by decide) (by decide)).2.2.1
    { schedule := [], success := true, statusMessage := "ok" } rfl rfl (by decide)

/-- Claim C9: a request with zero clients or zero therapists yields
`success = true`, an empty schedule and the fixed status message, and the
response does not depend on the solver oracle (the guard returns before
any model is built or solved). -/
theorem claim_C9 (req : SolveRequest) (oracle : Bool → ModelData → SolveResponseE)
    (ops ope : Int)
    (hs : time_to_minutes req.config.operatingHoursStart = some ops)
    (he : time_to_minutes req.config.operatingHoursEnd = some ope)
    (hempty : req.clients = [] ∨ req.therapists = []) :
    (∃ cm, buildAndSolveFull req oracle = some
      { schedule := [], success := true,
        statusMessage := "No clients or therapists to schedule.",
        objectiveValue := none, coverageMode := cm }) ∧
    (∀ oracle2, buildAndSolveFull req oracle2 = buildAndSolveFull req oracle) := by
  have hguard : (req.clients.length == 0 || req.therapists.length == 0) = true := by
    rcases hempty with h | h <;> simp [h]
  have hattempt : ∀ oracle2 hard, attemptSolve req oracle2 hard =
      some { schedule := [], success := true,
             statusMessage := "No clients or therapists to schedule." } := by
    intro oracle2 hard
    simp [attemptSolve, hs, he, hguard]
  constructor
  · by_cases hcap : (req.clients.length : Int) * pyFloorDiv (ope - ops) SLOT_SIZE ≤
        (req.therapists.length : Int) * (pyFloorDiv (ope - ops) SLOT_SIZE - 2)
    · exact ⟨"hard", by
        simp [buildAndSolveFull, build_and_solve, build_and_solve_trace, hs, he,
          hcap, hattempt]⟩
    · exact ⟨"soft", by
        simp [buildAndSolveFull, build_and_solve, build_and_solve_trace, hs, he,
          hcap, hattempt]⟩
  · intro oracle2
    unfold buildAndSolveFull build_and_solve build_and_solve_trace
    rw [hs, he]
    simp only [hattempt]

/-- Witness for C9: the concrete no-therapist request. -/
theorem claim_C9_witness :
    (∃ cm, buildAndSolveFull reqNoTherapists trivialOracle = some
      { schedule := [], success := true,
        statusMessage := "No clients or therapists to schedule.",
        objectiveValue := none, coverageMode := cm }) ∧
    (∀ oracle2, buildAndSolveFull reqNoTherapists oracle2 =
      buildAndSolveFull reqNoTherapists trivialOracle) :=
  claim_C9 reqNoTherapists trivialOracle 540 1020 (by decide) (by decide)
    (Or.inr rfl)

/-- Claim C10 fails as stated: with zero clients, one therapist and a
zero-slot operating window the capacity precondition `0 ≤ 1 × (0 − 2)` is
false, so the empty-problem response is returned from the soft path with
`coverageMode = "soft"`, not `"hard"`. -/
theorem claim_C10_counterexample :
    reqNoClientsZeroSlots.clients = [] ∧
    buildAndSolveFull reqNoClientsZeroSlots trivialOracle = some
      { schedule := [], success := true,
        statusMessage := "No clients or therapists to schedule.",
        objectiveValue := none, coverageMode := "soft" } := by
  constructor
  · rfl
  · decide

/-- Claim C10, amended: with zero clients the response carries
`coverageMode = "hard"` provided additionally `num_therapists = 0` or
`num_slots ≥ 2` (so that `0 ≤ num_therapists × (num_slots − 2)`); with at
least one client, zero therapists and `num_slots > 0` it carries
`coverageMode = "soft"`; both are the same success-true empty-schedule
response. -/
theorem claim_C10_amended (req : SolveRequest)
    (oracle : Bool → ModelData → SolveResponseE) (ops ope : Int)
    (hs : time_to_minutes req.config.operatingHoursStart = some ops)
    (he : time_to_minutes req.config.operatingHoursEnd = some ope) :
    (req.clients = [] →
      (req.therapists = [] ∨ 2 ≤ pyFloorDiv (ope - ops) SLOT_SIZE) →
      buildAndSolveFull req oracle = some
        { schedule := [], success := true,
          statusMessage := "No clients or therapists to schedule.",
          objectiveValue := none, coverageMode := "hard" }) ∧
    (req.clients ≠ [] → req.therapists = [] →
      0 < pyFloorDiv (ope - ops) SLOT_SIZE →
      buildAndSolveFull req oracle = some
        { schedule := [], success := true,
          statusMessage := "No clients or therapists to schedule.",
          objectiveValue := none, coverageMode := "soft" }) := by
  constructor
  · intro hc hcond
    have hguard : (req.clients.length == 0 || req.therapists.length == 0) = true := by
      simp [hc]
    have hattempt : ∀ hard, attemptSolve req oracle hard =
        some { schedule := [], success := true,
               statusMessage := "No clients or therapists to schedule." } := by
      intro hard
      simp [attemptSolve, hs, he, hguard]
    have hcap : (req.clients.length : Int) * pyFloorDiv (ope - ops) SLOT_SIZE ≤
        (req.therapists.length : Int) * (pyFloorDiv (ope - ops) SLOT_SIZE - 2) := by
      rw [hc]
      simp only [List.length_nil, Nat.cast_zero, zero_mul]
      rcases hcond with h | h
      · rw [h]; simp
      · have h2 : (0 : Int) ≤ pyFloorDiv (ope - ops) SLOT_SIZE - 2 := by omega
        exact mul_nonneg (by positivity) h2
    simp [buildAndSolveFull, build_and_solve, build_and_solve_trace, hs, he,
      hcap, hattempt]
  · intro hc ht hslots
    have hguard : (req.clients.length == 0 || req.therapists.length == 0) = true := by
      simp [ht]
    have hattempt : ∀ hard, attemptSolve req oracle hard =
        some { schedule := [], success := true,
               statusMessage := "No clients or therapists to schedule." } := by
      intro hard
      simp [attemptSolve, hs, he, hguard]
    have hcap : ¬((req.clients.length : Int) * pyFloorDiv (ope - ops) SLOT_SIZE ≤
        (req.therapists.length : Int) * (pyFloorDiv (ope - ops) SLOT_SIZE - 2)) := by
      rw [ht]
      simp only [List.length_nil, Nat.cast_zero, zero_mul]
      have hcpos : (0 : Int) < (req.clients.length : Int) := by
        have : req.clients.length ≠ 0 := by
          intro h0
          exact hc (List.length_eq_zero.mp h0)
        omega
      have : (0 : Int) < (req.clients.length : Int) * pyFloorDiv (ope - ops) SLOT_SIZE :=
        mul_pos hcpos hslots
      omega
    simp [buildAndSolveFull, build_and_solve, build_and_solve_trace, hs, he,
      hcap, hattempt]

/-- Witness for the amended C10: both sides at concrete requests. -/
theorem claim_C10_witness :
    buildAndSolveFull reqNoClients trivialOracle = some
      { schedule := [], success := true,
        statusMessage := "No clients or therapists to schedule.",
        objectiveValue := none, coverageMode := "hard" } ∧
    buildAndSolveFull reqNoTherapists trivialOracle = some
      { schedule := [], success := true,
        statusMessage := "No clients or therapists to schedule.",
        objectiveValue := none, coverageMode := "soft" } :=
  ⟨(claim_C10_amended reqNoClients trivialOracle 540 1020 (by decide) (by decide)).1
      rfl (Or.inr (by decide)),
   (claim_C10_amended reqNoTherapists trivialOracle 540 1020 (by decide) (by decide)).2
      (by decide) rfl (by decide)⟩

theorem t2m_ne_empty (s : String) (m : Int)
    (h : time_to_minutes s = some m) : (s == "") = false := by
  by_cases hs : s = ""
  · subst hs
    have h0 : time_to_minutes "" = none := by decide
    rw [h0] at h
    cases h
  · simp [hs]

/-- An out-of-range callout is a no-op on the blocked tables. -/
theorem applyCallout_noop (opStart numSlots : Int) (tIds cIds : List String)
    (st : List (List (Int × Int)) × List (List (Int × Int)))
    (co : Callout) (sm em : Int)
    (h1 : time_to_minutes co.startTime = some sm)
    (h2 : time_to_minutes co.endTime = some em)
    (hle : min numSlots (pyCeilDiv (em - opStart) SLOT_SIZE) ≤
      max 0 (pyFloorDiv (sm - opStart) SLOT_SIZE)) :
    applyCallout opStart numSlots tIds cIds st co = some st := by
  unfold applyCallout
  rw [h1, h2]
  simp only [if_pos hle]

/-- Inserting an out-of-range callout anywhere leaves the blocked tables
unchanged. -/
theorem calloutBlocked_insert (opStart numSlots : Int) (tIds cIds : List String)
    (l1 l2 : List Callout) (co : Callout) (sm em : Int)
    (h1 : time_to_minutes co.startTime = some sm)
    (h2 : time_to_minutes co.endTime = some em)
    (hle : min numSlots (pyCeilDiv (em - opStart) SLOT_SIZE) ≤
      max 0 (pyFloorDiv (sm - opStart) SLOT_SIZE)) :
    calloutBlocked opStart numSlots tIds cIds (l1 ++ co :: l2) =
    calloutBlocked opStart numSlots tIds cIds (l1 ++ l2) := by
  unfold calloutBlocked
  rw [List.foldlM_append, List.foldlM_append]
  cases hfold : List.foldlM (applyCallout opStart numSlots tIds cIds)
      (List.replicate tIds.length [], List.replicate cIds.length []) l1 with
  | none => rfl
  | some st =>
    have hno := applyCallout_noop opStart numSlots tIds cIds st co sm em h1 h2 hle
    simp [List.foldlM_cons, hno]

/-- A callout with an unparseable start time makes the whole pass raise. -/
theorem calloutBlocked_unparseable (opStart numSlots : Int)
    (tIds cIds : List String) (cos : List Callout) (co : Callout)
    (hmem : co ∈ cos) (hbad : time_to_minutes co.startTime = none) :
    calloutBlocked opStart numSlots tIds cIds cos = none := by
  unfold calloutBlocked
  generalize (List.replicate tIds.length ([] : List (Int × Int)),
    List.replicate cIds.length ([] : List (Int × Int))) = st
  induction cos generalizing st with
  | nil => cases hmem
  | cons c rest ih =>
    rw [List.foldlM_cons]
    rcases List.mem_cons.mp hmem with hco | hco
    · subst hco
      have : applyCallout opStart numSlots tIds cIds st co = none := by
        unfold applyCallout
        rw [hbad]
      rw [this]
      rfl
    · cases happ : applyCallout opStart numSlots tIds cIds st c with
      | none => rfl
      | some st2 => exact ih hco st2

/-- An out-of-range allied-health need is skipped. -/
theorem buildAhEntry_out_of_range (day : String) (opStart numSlots : Int)
    (therapists : List Therapist) (maxW otherM : Int) (ci : Nat)
    (need : AlliedHealthNeed) (sm em : Int)
    (h1 : time_to_minutes need.startTime = some sm)
    (h2 : time_to_minutes need.endTime = some em)
    (hrange : pyFloorDiv (sm - opStart) SLOT_SIZE < 0 ∨
      numSlots < pyFloorDiv (sm - opStart) SLOT_SIZE + pyCeilDiv (em - sm) SLOT_SIZE) :
    buildAhEntry day opStart numSlots therapists maxW otherM ci need = some none := by
  unfold buildAhEntry
  by_cases hday : need.specificDays.contains day = true
  · rw [t2m_ne_empty _ _ h1, t2m_ne_empty _ _ h2]
    simp only [hday, Bool.not_true, Bool.false_eq_true, if_false, Bool.or_self]
    rw [h1, h2]
    have hcond : (decide (pyFloorDiv (sm - opStart) SLOT_SIZE < 0) ||
        decide (pyFloorDiv (sm - opStart) SLOT_SIZE +
          pyCeilDiv (em - sm) SLOT_SIZE > numSlots)) = true := by
      rcases hrange with h | h <;> simp [h]
    simp only [hcond, if_true, if_pos]
  · rw [Bool.not_eq_true] at hday
    simp only [hday, Bool.not_false, if_true]

/-- Inserting an out-of-range need anywhere in a client's need list leaves
the materialized entries unchanged. -/
theorem clientAhEntries_insert (day : String) (opStart numSlots : Int)
    (therapists : List Therapist) (maxW otherM : Int) (ci : Nat)
    (n1 n2 : List AlliedHealthNeed) (need : AlliedHealthNeed) (sm em : Int)
    (h1 : time_to_minutes need.startTime = some sm)
    (h2 : time_to_minutes need.endTime = some em)
    (hrange : pyFloorDiv (sm - opStart) SLOT_SIZE < 0 ∨
      numSlots < pyFloorDiv (sm - opStart) SLOT_SIZE + pyCeilDiv (em - sm) SLOT_SIZE) :
    clientAhEntries day opStart numSlots therapists maxW otherM ci (n1 ++ need :: n2) =
    clientAhEntries day opStart numSlots therapists maxW otherM ci (n1 ++ n2) := by
  induction n1 with
  | nil =>
    simp only [List.nil_append, clientAhEntries]
    rw [buildAhEntry_out_of_range day opStart numSlots therapists maxW otherM ci
      need sm em h1 h2 hrange]
  | cons n n1' ih =>
    simp only [List.cons_append, clientAhEntries]
    cases buildAhEntry day opStart numSlots therapists maxW otherM ci n with
    | none => rfl
    | some o =>
      cases o with
      | none => exact ih
      | some e => exact congrArg (Option.map (fun es => e :: es)) ih

/-- A need with a matching day, non-empty times, and an unparseable start
time makes the build raise. -/
theorem buildAhEntry_unparseable (day : String) (opStart numSlots : Int)
    (therapists : List Therapist) (maxW otherM : Int) (ci : Nat)
    (need : AlliedHealthNeed)
    (hday : need.specificDays.contains day = true)
    (hs1 : (need.startTime == "") = false) (hs2 : (need.endTime == "") = false)
    (hbad : time_to_minutes need.startTime = none) :
    buildAhEntry day opStart numSlots therapists maxW otherM ci need = none := by
  unfold buildAhEntry
  simp only [hday, Bool.not_true, Bool.false_eq_true, if_false, hs1, hs2,
    Bool.or_self]
  rw [hbad]

/-- Claim C8 fails as stated for unparseable time strings: a callout whose
start time does not parse propagates the `ValueError` and the whole solve
raises (`none`) instead of completing with the callout dropped. -/
theorem claim_C8_counterexample :
    time_to_minutes "banana" = none ∧
    buildAndSolveFull reqBadCallout trivialOracle = none := by
  constructor
  · decide
  · decide

/-- Claim C8, amended: a callout or allied-health need whose *slot range*
falls outside operating hours is silently dropped — it contributes nothing
and removing it changes nothing, so the solve proceeds for the rest of the
day — but a callout or need with an *unparseable* non-empty time string
raises an exception that fails the whole solve. -/
theorem claim_C8_amended :
    (∀ (opStart numSlots : Int) (tIds cIds : List String)
       (l1 l2 : List Callout) (co : Callout) (sm em : Int),
       time_to_minutes co.startTime = some sm →
       time_to_minutes co.endTime = some em →
       min numSlots (pyCeilDiv (em - opStart) SLOT_SIZE) ≤
         max 0 (pyFloorDiv (sm - opStart) SLOT_SIZE) →
       calloutBlocked opStart numSlots tIds cIds (l1 ++ co :: l2) =
         calloutBlocked opStart numSlots tIds cIds (l1 ++ l2)) ∧
    (∀ (day : String) (opStart numSlots : Int) (therapists : List Therapist)
       (maxW otherM : Int) (ci : Nat) (n1 n2 : List AlliedHealthNeed)
       (need : AlliedHealthNeed) (sm em : Int),
       time_to_minutes need.startTime = some sm →
       time_to_minutes need.endTime = some em →
       (pyFloorDiv (sm - opStart) SLOT_SIZE < 0 ∨
        numSlots < pyFloorDiv (sm - opStart) SLOT_SIZE +
          pyCeilDiv (em - sm) SLOT_SIZE) →
       clientAhEntries day opStart numSlots therapists maxW otherM ci
           (n1 ++ need :: n2) =
         clientAhEntries day opStart numSlots therapists maxW otherM ci (n1 ++ n2)) ∧
    (∀ (opStart numSlots : Int) (tIds cIds : List String) (cos : List Callout)
       (co : Callout), co ∈ cos → time_to_minutes co.startTime = none →
       calloutBlocked opStart numSlots tIds cIds cos = none) ∧
    (∀ (day : String) (opStart numSlots : Int) (therapists : List Therapist)
       (maxW otherM : Int) (ci : Nat) (need : AlliedHealthNeed),
       need.specificDays.contains day = true →
       (need.startTime == "") = false → (need.endTime == "") = false →
       time_to_minutes need.startTime = none →
       buildAhEntry day opStart numSlots therapists maxW otherM ci need = none) :=
  ⟨fun op nS tIds cIds l1 l2 co sm em h1 h2 hle =>
      calloutBlocked_insert op nS tIds cIds l1 l2 co sm em h1 h2 hle,
   fun day op nS th mw om ci n1 n2 need sm em h1 h2 hr =>
      clientAhEntries_insert day op nS th mw om ci n1 n2 need sm em h1 h2 hr,
   fun op nS tIds cIds cos co hmem hbad =>
      calloutBlocked_unparseable op nS tIds cIds cos co hmem hbad,
   fun day op nS th mw om ci need hday hs1 hs2 hbad =>
      buildAhEntry_unparseable day op nS th mw om ci need hday hs1 hs2 hbad⟩

/-- Witness for the amended C8: the concrete pre-hours callout and need are
dropped without affecting the result. -/
theorem claim_C8_witness :
    calloutBlocked 540 32 ["t1"] ["c1"] [coOutOfRange] =
      calloutBlocked 540 32 ["t1"] ["c1"] [] ∧
    clientAhEntries "Monday" 540 32 [{ id := "t1", role := "OT" }] 999999 0 0
        [needOutOfRange] =
      clientAhEntries "Monday" 540 32 [{ id := "t1", role := "OT" }] 999999 0 0 [] :=
  ⟨claim_C8_amended.1 540 32 ["t1"] ["c1"] [] [] coOutOfRange 420 480
      (by decide) (by decide) (by decide),
   claim_C8_amended.2.1 "Monday" 540 32 [{ id := "t1", role := "OT" }] 999999 0 0
      [] [] needOutOfRange 420 480 (by decide) (by decide) (by decide)⟩

theorem all_range_true {n : Nat} {p : Nat → Bool}
    (h : (List.range n).all p = true) (i : Nat) (hi : i < n) : p i = true := by
  rw [List.all_eq_true] at h
  exact h i (List.mem_range.mpr hi)

theorem modelSat_coverage {md : ModelData} {hard : Bool} {a : Assignment}
    (h : modelSat md hard a = true) : coverageOk md hard a = true := by
  simp only [modelSat, Bool.and_eq_true] at h
  tauto

theorem modelSat_pairOrder {md : ModelData} {hard : Bool} {a : Assignment}
    (h : modelSat md hard a = true) : pairOrderOk md a = true := by
  simp only [modelSat, Bool.and_eq_true] at h
  tauto

theorem modelSat_lunchDom {md : ModelData} {hard : Bool} {a : Assignment}
    (h : modelSat md hard a = true) : lunchDomOk md a = true := by
  simp only [modelSat, Bool.and_eq_true] at h
  tauto

theorem modelSat_lunchLink {md : ModelData} {hard : Bool} {a : Assignment}
    (h : modelSat md hard a = true) : lunchLinkOk md a = true := by
  simp only [modelSat, Bool.and_eq_true] at h
  tauto

theorem modelSat_ahExactlyOne {md : ModelData} {hard : Bool} {a : Assignment}
    (h : modelSat md hard a = true) : ahExactlyOneOk md a = true := by
  simp only [modelSat, Bool.and_eq_true] at h
  tauto

/-- Claim C1 fails as stated, in both directions.  Left: a client whose
eligible-therapist list is empty gets no coverage constraint at all — the
all-idle assignment satisfies the hard-phase model while the client's 32
available slots receive zero ABA.  Right: the constraint the code adds is
`Σ duration ≥ avail`, not an equality — with an unassignable allied-health
need (counted in `ah_length` but materializing no interval) a satisfying
hard-phase assignment gives the client 32 ABA slots against
`avail = 28`. -/
theorem claim_C1_counterexample :
    (mkModelData reqEmptyElig = some mdEmptyElig ∧
     modelSat mdEmptyElig true aIdle = true ∧
     mdEmptyElig.clientAvail.getD 0 0 = 32 ∧
     eligOf mdEmptyElig 0 = [] ∧
     totalAbaDur mdEmptyElig aIdle 0 = 0) ∧
    (mkModelData reqUnassignedAh = some mdUnassignedAh ∧
     modelSat mdUnassignedAh true aFull = true ∧
     mdUnassignedAh.clientAvail.getD 0 0 = 28 ∧
     totalAbaDur mdUnassignedAh aFull 0 = 32) := by
  refine ⟨⟨by decide, by decide, by decide, by decide, by decide⟩,
    ⟨by decide, by decide, by decide, by decide⟩⟩

/-- Claim C1, amended: in the hard phase the model constrains the total ABA
duration of a client to be *at least* `avail_c`, and only for weekday
clients with `avail_c > 0`, a non-empty eligible-therapist list and a
positive remaining weekly budget (otherwise no ABA duration variable exists
and no constraint is added). -/
theorem claim_C1_amended (req : SolveRequest) (md : ModelData) (a : Assignment)
    (hmd : mkModelData req = some md)
    (hsat : modelSat md true a = true)
    (ci : Nat) (hci : ci < md.numC)
    (hweek : md.isWeekend = false)
    (havail : 0 < md.clientAvail.getD ci 0)
    (helig : eligOf md ci ≠ [])
    (hbudget : 0 < md.remainingWeeklySlots.getD ci 0) :
    md.clientAvail.getD ci 0 ≤ totalAbaDur md a ci := by
  have hcov := modelSat_coverage hsat
  unfold coverageOk at hcov
  rw [hweek] at hcov
  simp only [Bool.false_eq_true, if_false] at hcov
  have hper := all_range_true hcov ci hci
  have hble : bLE (md.clientAvail.getD ci 0) 0 = false := by
    unfold bLE
    exact decide_eq_false (by omega)
  have hkc : kCount md ci = 2 := by
    unfold kCount
    rw [hweek]
    simp only [Bool.false_or]
    rw [if_neg]
    simp only [decide_eq_true_eq]
    omega
  have hne : (eligOf md ci).isEmpty = false := by
    cases h : eligOf md ci with
    | nil => exact absurd h helig
    | cons x xs => rfl
  simp only [hble, Bool.false_eq_true, if_false, hne, hkc, Bool.not_false,
    Bool.true_and, if_true] at hper
  have hper2 : bLE (md.clientAvail.getD ci 0) (totalAbaDur md a ci) = true := by
    simpa using hper
  unfold bLE at hper2
  exact of_decide_eq_true hper2

/-- Witness for the amended C1: the two-BT full-coverage day. -/
theorem claim_C1_witness :
    mdLunch5.clientAvail.getD 0 0 ≤ totalAbaDur mdLunch5 aFull 0 :=
  claim_C1_amended reqLunch5 mdLunch5 aFull (by decide) (by decide) 0
    (by decide) (by decide) (by decide) (by decide) (by decide)

/-- Claim C7: per (client, therapist) pair, session 1 is active only if
session 0 is, and when both are active session 1 starts at least one slot
after session 0 ends, so the two sessions are ordered, disjoint and
separated by at least one empty slot. -/
theorem claim_C7 (req : SolveRequest) (md : ModelData) (a : Assignment) (hard : Bool)
    (hmd : mkModelData req = some md)
    (hsat : modelSat md hard a = true)
    (ci tl : Nat) (hci : ci < md.numC) (htl : tl < (eligOf md ci).length)
    (hk : kCount md ci = 2) :
    (a.abaActive ci tl 1 = true → a.abaActive ci tl 0 = true) ∧
    (a.abaActive ci tl 0 = true → a.abaActive ci tl 1 = true →
      a.abaStart ci tl 0 + a.abaDur ci tl 0 + 1 ≤ a.abaStart ci tl 1 ∧
      ∀ s : Int, ¬(a.abaStart ci tl 0 ≤ s ∧
        s < a.abaStart ci tl 0 + a.abaDur ci tl 0 ∧
        a.abaStart ci tl 1 ≤ s ∧
        s < a.abaStart ci tl 1 + a.abaDur ci tl 1)) := by
  have hpair := modelSat_pairOrder hsat
  unfold pairOrderOk at hpair
  have h1 := all_range_true hpair ci hci
  have h2 := all_range_true h1 tl htl
  rw [hk, if_neg (by omega)] at h2
  rw [Bool.and_eq_true] at h2
  obtain ⟨himp, hord⟩ := h2
  constructor
  · intro h1a
    rw [h1a] at himp
    simpa using himp
  · intro h0a h1a
    rw [h0a, h1a] at hord
    simp only [Bool.and_self, Bool.not_true, Bool.false_or] at hord
    have hle : a.abaStart ci tl 0 + a.abaDur ci tl 0 + 1 ≤ a.abaStart ci tl 1 := by
      unfold bLE at hord
      exact of_decide_eq_true hord
    exact ⟨hle, fun s hs => by omega⟩

/-- Witness for C7 at the concrete full-coverage day: therapist `t1`'s two
sessions for the client are `[0, 8)` and `[16, 24)`. -/
theorem claim_C7_witness :
    aFull.abaActive 0 0 0 = true ∧
    aFull.abaStart 0 0 0 + aFull.abaDur 0 0 0 + 1 ≤ aFull.abaStart 0 0 1 := by
  have h := claim_C7 reqLunch5 mdLunch5 aFull true (by decide) (by decide) 0 0
    (by decide) (by decide) (by decide)
  exact ⟨h.1 (by decide), (h.2 (by decide) (by decide)).1⟩

/-- Claim C5 is violated by the code (code bug): on a Saturday, a client
capped at 60 weekly minutes with two individually-fitting one-hour OT
needs has no ABA duration variables, so the weekly-minutes constraint is
never added (`if all_durations:`) and the per-need check
(`other_mins + length * 15 > max_weekly`) does not accumulate across
needs.  The model is satisfiable — indeed `add_exactly_one` forces both
needs to be assigned in *every* solution — and the assigned schedule
carries 120 client minutes against the 60-minute cap. -/
theorem claim_C5_weekly_cap :
    mkModelData reqWeekendAh = some mdWeekendAh ∧
    modelSat mdWeekendAh false aWeekendAh = true ∧
    get_max_weekly_minutes (reqWeekendAh.clients.getD 0 default)
      reqWeekendAh.insuranceQualifications = 60 ∧
    dictGetD reqWeekendAh.otherDayMinutesPerClient "c1" 0 = 0 ∧
    clientScheduledSlots mdWeekendAh aWeekendAh 0 * 15 = 120 ∧
    (∀ a : Assignment, modelSat mdWeekendAh false a = true →
      a.ahChosen 0 0 = true ∧ a.ahChosen 1 0 = true) := by
  refine ⟨by decide, by decide, by decide, by decide, by decide, ?_⟩
  intro a ha
  have hexa := modelSat_ahExactlyOne ha
  have hent : mdWeekendAh.ahEntries =
      [{ ci := 0, startSlot := 4, length := 4,
         sessionType := "AlliedHealth_OT", eligibleTis := [0] },
       { ci := 0, startSlot := 12, length := 4,
         sessionType := "AlliedHealth_OT", eligibleTis := [0] }] := by decide
  unfold ahExactlyOneOk at hexa
  rw [hent] at hexa
  have h0 := List.all_eq_true.mp hexa
    (0, { ci := 0, startSlot := 4, length := 4,
          sessionType := "AlliedHealth_OT", eligibleTis := [0] }) (by decide)
  have h1 := List.all_eq_true.mp hexa
    (1, { ci := 0, startSlot := 12, length := 4,
          sessionType := "AlliedHealth_OT", eligibleTis := [0] }) (by decide)
  simp only [List.isEmpty_cons, Bool.false_or] at h0 h1
  have hr : List.range ([(0 : Nat)] : List Nat).length = [0] := by decide
  rw [hr] at h0 h1
  constructor
  · by_cases hch : a.ahChosen 0 0 = true
    · exact hch
    · rw [Bool.not_eq_true] at hch
      simp [List.countP_cons, List.countP_nil, hch] at h0
  · by_cases hch : a.ahChosen 1 0 = true
    · exact hch
    · rw [Bool.not_eq_true] at hch
      simp [List.countP_cons, List.countP_nil, hch] at h1

/-- `meets_insurance` in propositional form (note: only the *required*
rank is tested against −1). -/
theorem meets_insurance_iff (t : Therapist) (c : Client)
    (iqs : List InsuranceQualification) (dr : List (String × Int)) :
    meets_insurance t c iqs dr = true ↔
    ∀ r ∈ c.insuranceRequirements,
      r ∈ t.qualifications ∨
      (get_role_rank r iqs dr ≤ get_role_rank t.role iqs dr ∧
       get_role_rank r iqs dr ≠ -1) ∨
      t.role = r := by
  unfold meets_insurance
  by_cases h : c.insuranceRequirements.isEmpty = true
  · rw [if_pos h, List.isEmpty_iff.mp h]
    simp
  · rw [if_neg h, List.all_eq_true]
    constructor
    · intro hall r hr
      have hb := hall r hr
      simp only [Bool.or_eq_true, Bool.and_eq_true, decide_eq_true_eq,
        beq_iff_eq, List.elem_iff, ge_iff_le] at hb
      tauto
    · intro hall r hr
      have hb := hall r hr
      simp only [Bool.or_eq_true, Bool.and_eq_true, decide_eq_true_eq,
        beq_iff_eq, List.elem_iff, ge_iff_le]
      tauto

/-- Membership in the eligibility list of lines 204–217: exactly the
non-OT/SLP, insurance-passing, non-cross-team-BT therapists. -/
theorem mem_eligibleInit_fst (therapists : List Therapist) (c : Client)
    (iqs : List InsuranceQualification) (dr : List (String × Int)) (ti : Nat) :
    ti ∈ (eligibleInit therapists c iqs dr).map Prod.fst ↔
    (ti < therapists.length ∧
     ((therapists.getD ti default).role == "OT" ||
      (therapists.getD ti default).role == "SLP") = false ∧
     meets_insurance (therapists.getD ti default) c iqs dr = true ∧
     team_tier (therapists.getD ti default).role
       (therapists.getD ti default).teamId c.teamId < 99) := by
  have hperm : ((eligibleInit therapists c iqs dr).map Prod.fst).Perm
      ((eligibleRaw therapists c iqs dr).map Prod.fst) :=
    (stableSortByKey_perm _ _).map Prod.fst
  rw [hperm.mem_iff]
  unfold eligibleRaw
  simp only [List.mem_map, List.mem_filterMap, List.mem_range]
  constructor
  · rintro ⟨p, ⟨x, hx, hfx⟩, hfst⟩
    split at hfx
    · cases hfx
    · split at hfx
      · split at hfx
        · cases hfx
        · next hrole hmeets htier =>
          injection hfx with hp
          subst hp
          cases hfst
          rw [Bool.not_eq_true] at hrole
          refine ⟨hx, hrole, hmeets, ?_⟩
          show team_tier (therapists.getD x default).role
            (therapists.getD x default).teamId c.teamId < 99
          omega
      · cases hfx
  · rintro ⟨hlt, hrole, hmeets, htier⟩
    refine ⟨(ti, team_tier (therapists.getD ti default).role
        (therapists.getD ti default).teamId c.teamId), ⟨ti, hlt, ?_⟩, rfl⟩
    rw [if_neg (by rw [hrole]; exact Bool.false_ne_true), if_pos hmeets,
      if_neg (by omega)]

/-- Claim C3 fails as stated: its rank clause demands *both* ranks differ
from −1, but the source only checks the required rank.  With requirement
`"REQX"` of explicit rank −2 and a therapist of unknown role (rank −1),
the code deems the therapist eligible while the spec's predicate rejects
them. -/
theorem claim_C3_counterexample :
    aba_eligible [tRankEdge] cRankEdge iqsRankEdge [] 0 ∧
    meets_insurance_spec tRankEdge cRankEdge iqsRankEdge [] = false ∧
    meets_insurance tRankEdge cRankEdge iqsRankEdge [] = true ∧
    tRankEdge.role ≠ "OT" ∧ tRankEdge.role ≠ "SLP" ∧
    team_tier tRankEdge.role tRankEdge.teamId cRankEdge.teamId < 99 ∧
    get_role_rank "REQX" iqsRankEdge [] = -2 ∧
    get_role_rank tRankEdge.role iqsRankEdge [] = -1 := by
  refine ⟨?_, by decide, by decide, by decide, by decide, by decide,
    by decide, by decide⟩
  unfold aba_eligible
  decide

/-- Claim C3, amended: a non-OT/SLP therapist not excluded as a cross-team
BT is ABA-eligible for `c` iff for every requirement id `r`: `r` is among
the therapist's qualifications, or the therapist's role rank ≥ rank(r)
with rank(r) ≠ −1 (the therapist's own rank may be −1 when rank(r) is
below −1), or the therapist's role name equals `r`; a client with no
requirements admits every such therapist. -/
theorem claim_C3_amended (therapists : List Therapist) (c : Client)
    (iqs : List InsuranceQualification) (dr : List (String × Int)) (ti : Nat)
    (hti : ti < therapists.length)
    (hrole1 : (therapists.getD ti default).role ≠ "OT")
    (hrole2 : (therapists.getD ti default).role ≠ "SLP")
    (hbt : team_tier (therapists.getD ti default).role
      (therapists.getD ti default).teamId c.teamId < 99) :
    (aba_eligible therapists c iqs dr ti ↔
      ∀ r ∈ c.insuranceRequirements,
        r ∈ (therapists.getD ti default).qualifications ∨
        (get_role_rank r iqs dr ≤
           get_role_rank (therapists.getD ti default).role iqs dr ∧
         get_role_rank r iqs dr ≠ -1) ∨
        (therapists.getD ti default).role = r) ∧
    (c.insuranceRequirements = [] → aba_eligible therapists c iqs dr ti) := by
  have hrole : ((therapists.getD ti default).role == "OT" ||
      (therapists.getD ti default).role == "SLP") = false := by
    rw [Bool.or_eq_false_iff, beq_eq_false_iff_ne, beq_eq_false_iff_ne]
    exact ⟨hrole1, hrole2⟩
  have hmain : aba_eligible therapists c iqs dr ti ↔
      ∀ r ∈ c.insuranceRequirements,
        r ∈ (therapists.getD ti default).qualifications ∨
        (get_role_rank r iqs dr ≤
           get_role_rank (therapists.getD ti default).role iqs dr ∧
         get_role_rank r iqs dr ≠ -1) ∨
        (therapists.getD ti default).role = r := by
    unfold aba_eligible
    rw [mem_eligibleInit_fst]
    rw [meets_insurance_iff]
    constructor
    · rintro ⟨-, -, hm, -⟩
      exact hm
    · intro hm
      exact ⟨hti, hrole, hm, hbt⟩
  refine ⟨hmain, fun hempty => ?_⟩
  rw [hmain, hempty]
  intro r hr
  cases hr

/-- Witness for the amended C3: a lone same-team BT is eligible for a
client without insurance requirements. -/
theorem claim_C3_witness :
    aba_eligible [{ id := "t1", role := "BT" }] { id := "c1" } [] [] 0 :=
  (claim_C3_amended [{ id := "t1", role := "BT" }] { id := "c1" } [] [] 0
    (by decide) (by decide) (by decide) (by decide)).2 rfl

theorem firstIdx_some : ∀ (l : List Nat) (x i : Nat),
    firstIdx l x = some i → i < l.length ∧ l.getD i 0 = x := by
  intro l
  induction l with
  | nil => intro x i h; cases h
  | cons y ys ih =>
    intro x i h
    unfold firstIdx at h
    by_cases hy : (y == x) = true
    · rw [if_pos hy] at h
      injection h with h2
      subst h2
      exact ⟨Nat.succ_pos _, by simpa using (beq_iff_eq.mp hy)⟩
    · rw [if_neg hy] at h
      cases hj : firstIdx ys x with
      | none => rw [hj] at h; cases h
      | some j =>
        rw [hj] at h
        injection h with h2
        subst h2
        obtain ⟨hlt, hget⟩ := ih x j hj
        exact ⟨by simpa using Nat.succ_lt_succ hlt, by simpa using hget⟩

theorem firstIdx_of_getD : ∀ (l : List Nat) (x i : Nat), l.Nodup →
    i < l.length → l.getD i 0 = x → firstIdx l x = some i := by
  intro l
  induction l with
  | nil => intro x i _ hi _; cases hi
  | cons y ys ih =>
    intro x i hnd hi hx
    unfold firstIdx
    cases i with
    | zero =>
      rw [List.getD_cons_zero] at hx
      rw [if_pos (beq_iff_eq.mpr hx)]
    | succ j =>
      rw [List.getD_cons_succ] at hx
      have hjlt : j < ys.length := by simpa using hi
      have hmem : x ∈ ys := by
        have hge : ys.getD j 0 = ys[j] := by
          rw [List.getD_eq_getElem?_getD, List.getElem?_eq_getElem hjlt]
          rfl
        rw [← hx, hge]
        exact List.getElem_mem hjlt
      have hy : (y == x) = false := by
        rw [beq_eq_false_iff_ne]
        intro hyx
        subst hyx
        exact (List.nodup_cons.mp hnd).1 hmem
      rw [hy]
      simp only [Bool.false_eq_true, if_false]
      rw [ih x j (List.nodup_cons.mp hnd).2 hjlt hx]
      rfl

theorem firstIdx_none : ∀ (l : List Nat) (x : Nat),
    firstIdx l x = none → x ∉ l := by
  intro l
  induction l with
  | nil => intro x _; simp
  | cons y ys ih =>
    intro x h
    unfold firstIdx at h
    by_cases hy : (y == x) = true
    · rw [if_pos hy] at h; cases h
    · rw [if_neg hy] at h
      intro hmem
      rcases List.mem_cons.mp hmem with hm | hm
      · exact hy (beq_iff_eq.mpr hm.symm)
      · cases hj : firstIdx ys x with
        | none => exact ih x hj hm
        | some j => rw [hj] at h; cases h

theorem filterMap_fst_eq_filter (f : Nat → Option (Nat × Int))
    (hf : ∀ x p, f x = some p → p.1 = x) (l : List Nat) :
    (l.filterMap f).map Prod.fst = l.filter (fun x => (f x).isSome) := by
  induction l with
  | nil => rfl
  | cons x xs ih =>
    cases hx : f x with
    | none => simp [List.filterMap_cons, hx, ih]
    | some p =>
      have hp := hf x p hx
      simp [List.filterMap_cons, hx, ih, List.filter_cons, hp]

theorem eligibleInit_fst_nodup (therapists : List Therapist) (c : Client)
    (iqs : List InsuranceQualification) (dr : List (String × Int)) :
    ((eligibleInit therapists c iqs dr).map Prod.fst).Nodup := by
  have hperm : ((eligibleInit therapists c iqs dr).map Prod.fst).Perm
      ((eligibleRaw therapists c iqs dr).map Prod.fst) :=
    (stableSortByKey_perm _ _).map Prod.fst
  rw [hperm.nodup_iff]
  unfold eligibleRaw
  rw [filterMap_fst_eq_filter]
  · exact (List.nodup_range _).filter _
  · intro x p hp
    simp only at hp
    split at hp
    · cases hp
    · split at hp
      · split at hp
        · cases hp
        · injection hp with h2
          subst h2
          rfl
      · cases hp

/-- Inversion of the model-data pipeline. -/
theorem mkModelData_inv (req : SolveRequest) (md : ModelData)
    (h : mkModelData req = some md) :
    ∃ ops ope lws lwe tb cb ahs,
      time_to_minutes req.config.operatingHoursStart = some ops ∧
      time_to_minutes req.config.operatingHoursEnd = some ope ∧
      time_to_minutes req.config.idealLunchWindowStart = some lws ∧
      time_to_minutes req.config.idealLunchWindowEndForStart = some lwe ∧
      calloutBlocked ops (pyFloorDiv (ope - ops) SLOT_SIZE)
        (req.therapists.map Therapist.id) (req.clients.map Client.id)
        req.callouts = some (tb, cb) ∧
      allAhEntries req.day ops (pyFloorDiv (ope - ops) SLOT_SIZE) req.therapists
        req.insuranceQualifications req.otherDayMinutesPerClient
        req.clients.enum = some ahs ∧
      md = mkModelDataCore req ops lws lwe (pyFloorDiv (ope - ops) SLOT_SIZE)
        tb cb ahs := by
  unfold mkModelData at h
  split at h
  · next ops ope lws lwe h1 h2 h3 h4 =>
    split at h
    · cases h
    · next blocked h5 =>
      split at h
      · cases h
      · next ahs h6 =>
        injection h with h7
        exact ⟨ops, ope, lws, lwe, blocked.1, blocked.2, ahs,
          h1, h2, h3, h4, h5, h6, h7.symm⟩
  · cases h

theorem eligOf_nodup (req : SolveRequest) (md : ModelData)
    (hmd : mkModelData req = some md) (ci : Nat) : (eligOf md ci).Nodup := by
  obtain ⟨ops, ope, lws, lwe, tb, cb, ahs, -, -, -, -, -, -, hcore⟩ :=
    mkModelData_inv req md hmd
  subst hcore
  unfold eligOf
  show ((req.clients.map _).getD ci []).Nodup
  rw [List.getD_eq_getElem?_getD, List.getElem?_map]
  cases hci : req.clients[ci]? with
  | none => simp
  | some c =>
    simp only [Option.map_some, Option.getD_some]
    have hsub : (((eligibleInit req.therapists c req.insuranceQualifications
          req.config.defaultRoleRank).filter
            (fun p => !(decide (rangeLenSum (tb.getD p.1 []) ≥
              pyFloorDiv (ope - ops) SLOT_SIZE)))).map Prod.fst).Sublist
        ((eligibleInit req.therapists c req.insuranceQualifications
          req.config.defaultRoleRank).map Prod.fst) :=
      (List.filter_sublist _).map Prod.fst
    exact hsub.nodup (eligibleInit_fst_nodup _ _ _ _)

theorem buildAhEntry_wf (day : String) (op nS : Int) (th : List Therapist)
    (mw om : Int) (ci : Nat) (need : AlliedHealthNeed) (e : AhEntry)
    (h : buildAhEntry day op nS th mw om ci need = some (some e)) :
    AhWf th.length e := by
  unfold buildAhEntry at h
  split at h
  · injection h with h2; cases h2
  · split at h
    · injection h with h2; cases h2
    · split at h
      · split at h
        · injection h with h2; cases h2
        · split at h
          · injection h with h2; cases h2
          · injection h with h2
            injection h2 with h3
            subst h3
            refine ⟨⟨need.type, rfl⟩, (List.nodup_range _).filter _, ?_⟩
            intro ti hti
            have := List.mem_filter.mp hti
            exact List.mem_range.mp this.1
      · cases h

theorem clientAhEntries_wf (day : String) (op nS : Int) (th : List Therapist)
    (mw om : Int) (ci : Nat) (needs : List AlliedHealthNeed)
    (es : List AhEntry)
    (h : clientAhEntries day op nS th mw om ci needs = some es) :
    ∀ e ∈ es, AhWf th.length e := by
  induction needs generalizing es with
  | nil =>
    unfold clientAhEntries at h
    injection h with h2
    subst h2
    intro e he
    cases he
  | cons need rest ih =>
    unfold clientAhEntries at h
    split at h
    · cases h
    · exact ih es h
    · next e0 hbuild =>
      cases hrest : clientAhEntries day op nS th mw om ci rest with
      | none => rw [hrest] at h; cases h
      | some es' =>
        rw [hrest] at h
        injection h with h2
        subst h2
        intro e he
        rcases List.mem_cons.mp he with he | he
        · subst he
          exact buildAhEntry_wf day op nS th mw om ci need e hbuild
        · exact ih es' hrest e he

theorem allAhEntries_wf (day : String) (op nS : Int) (th : List Therapist)
    (iqs : List InsuranceQualification) (om : List (String × Int))
    (pairs : List (Nat × Client)) (es : List AhEntry)
    (h : allAhEntries day op nS th iqs om pairs = some es) :
    ∀ e ∈ es, AhWf th.length e := by
  induction pairs generalizing es with
  | nil =>
    unfold allAhEntries at h
    injection h with h2
    subst h2
    intro e he
    cases he
  | cons p rest ih =>
    unfold allAhEntries at h
    split at h
    · cases h
    · next es1 hclient =>
      cases hrest : allAhEntries day op nS th iqs om rest with
      | none => rw [hrest] at h; cases h
      | some es2 =>
        rw [hrest] at h
        injection h with h2
        subst h2
        intro e he
        rcases List.mem_append.mp he with he | he
        · exact clientAhEntries_wf day op nS th _ _ _ _ es1 hclient e he
        · exact ih es2 hrest e he

theorem md_ahEntries_wf (req : SolveRequest) (md : ModelData)
    (hmd : mkModelData req = some md) :
    ∀ e ∈ md.ahEntries, AhWf md.numT e := by
  obtain ⟨ops, ope, lws, lwe, tb, cb, ahs, -, -, -, -, -, hah, hcore⟩ :=
    mkModelData_inv req md hmd
  subst hcore
  intro e he
  exact allAhEntries_wf _ _ _ _ _ _ _ _ hah e he

theorem mem_extractABA_type (md : ModelData) (a : Assignment)
    (e : ScheduleEntryE) (he : e ∈ extractABA md a) : e.sessionType = "ABA" := by
  unfold extractABA at he
  rw [List.mem_flatMap] at he
  obtain ⟨ci, -, he⟩ := he
  rw [List.mem_flatMap] at he
  obtain ⟨tl, -, he⟩ := he
  rw [List.mem_map] at he
  obtain ⟨k, -, rfl⟩ := he
  rfl

theorem mem_extractAH_shape (md : ModelData) (a : Assignment)
    (e : ScheduleEntryE) (he : e ∈ extractAH md a) :
    ∃ p ∈ md.ahEntries.enum,
      e = { sessionType := p.2.sessionType, clientIdx := some p.2.ci,
            therapistIdx := ahAssigned p.2 a p.1,
            startSlot := p.2.startSlot, durSlots := p.2.length } := by
  unfold extractAH at he
  rw [List.mem_map] at he
  obtain ⟨p, hp, rfl⟩ := he
  exact ⟨p, hp, rfl⟩

theorem ah_sessionType_ne_lunch (numT : Nat) (e : AhEntry) (hwf : AhWf numT e) :
    e.sessionType ≠ "IndirectTime" := by
  obtain ⟨⟨t, ht⟩, -, -⟩ := hwf
  rw [ht]
  intro hcontra
  have hlen := congrArg String.length hcontra
  rw [String.length_append] at hlen
  have h1 : ("AlliedHealth_" : String).length = 13 := rfl
  have h2 : ("IndirectTime" : String).length = 12 := rfl
  rw [h1, h2] at hlen
  omega

theorem extractLunch_mem (md : ModelData) (a : Assignment) (e : ScheduleEntryE)
    (he : e ∈ extractLunch md a) :
    ∃ ti2, ti2 < md.numT ∧ a.lunchActive ti2 = true ∧
      e = { sessionType := "IndirectTime", clientIdx := none,
            therapistIdx := some ti2, startSlot := a.lunchStart ti2,
            durSlots := 2 } := by
  unfold extractLunch at he
  rw [List.mem_map] at he
  obtain ⟨ti2, hmem, rfl⟩ := he
  rw [List.mem_filter] at hmem
  exact ⟨ti2, List.mem_range.mp hmem.1, hmem.2, rfl⟩

theorem extractLunch_any_iff (md : ModelData) (a : Assignment) (ti : Nat)
    (hti : ti < md.numT) :
    (extractLunch md a).any (isLunchOf ti) = true ↔ a.lunchActive ti = true := by
  rw [List.any_eq_true]
  constructor
  · rintro ⟨e, he, hl⟩
    obtain ⟨ti2, h2, hact, rfl⟩ := extractLunch_mem md a e he
    unfold isLunchOf at hl
    simp only [Bool.and_eq_true, beq_iff_eq] at hl
    obtain ⟨-, hl2⟩ := hl
    injection hl2 with hl3
    subst hl3
    exact hact
  · intro hact
    have hmem : ({ sessionType := "IndirectTime", clientIdx := none,
                   therapistIdx := some ti, startSlot := a.lunchStart ti,
                   durSlots := 2 } : ScheduleEntryE) ∈ extractLunch md a := by
      unfold extractLunch
      rw [List.mem_map]
      exact ⟨ti, List.mem_filter.mpr ⟨List.mem_range.mpr hti, hact⟩, rfl⟩
    refine ⟨_, hmem, ?_⟩
    unfold isLunchOf
    simp

theorem extractLunch_countP_le_one (md : ModelData) (a : Assignment) (ti : Nat) :
    (extractLunch md a).countP (isLunchOf ti) ≤ 1 := by
  unfold extractLunch
  rw [List.countP_map]
  have hfun : ((isLunchOf ti) ∘ (fun ti2 =>
      ({ sessionType := "IndirectTime", clientIdx := none,
         therapistIdx := some ti2, startSlot := a.lunchStart ti2,
         durSlots := 2 } : ScheduleEntryE))) = (fun ti2 => ti2 == ti) := by
    funext ti2
    unfold isLunchOf
    simp [Function.comp]
  rw [hfun]
  calc List.countP (fun ti2 => ti2 == ti)
        ((List.range md.numT).filter (fun ti2 => a.lunchActive ti2))
      ≤ List.countP (fun ti2 => ti2 == ti) (List.range md.numT) :=
        (List.filter_sublist _).countP_le _
    _ = List.count ti (List.range md.numT) := (List.count_eq_countP ti _).symm
    _ ≤ 1 := List.nodup_iff_count_le_one.mp (List.nodup_range _) ti

theorem extractABA_countP_lunch (md : ModelData) (a : Assignment) (ti : Nat) :
    (extractABA md a).countP (isLunchOf ti) = 0 := by
  rw [List.countP_eq_zero]
  intro e he hcontra
  have htype := mem_extractABA_type md a e he
  unfold isLunchOf at hcontra
  rw [Bool.and_eq_true, beq_iff_eq] at hcontra
  rw [htype] at hcontra
  exact absurd hcontra.1 (by decide)

theorem extractAH_countP_lunch (md : ModelData) (a : Assignment) (ti : Nat)
    (hwf : ∀ e ∈ md.ahEntries, AhWf md.numT e) :
    (extractAH md a).countP (isLunchOf ti) = 0 := by
  rw [List.countP_eq_zero]
  intro e he hcontra
  obtain ⟨p, hp, rfl⟩ := mem_extractAH_shape md a e he
  unfold isLunchOf at hcontra
  rw [Bool.and_eq_true, beq_iff_eq] at hcontra
  have h5 := List.mem_enum hp
  have hpmem : p.2 ∈ md.ahEntries := by
    rw [h5.2]
    exact List.getElem_mem h5.1
  exact ah_sessionType_ne_lunch md.numT p.2 (hwf p.2 hpmem) hcontra.1

theorem enum_mem_snd {α : Type} (l : List α) (p : Nat × α) (hp : p ∈ l.enum) :
    p.2 ∈ l := by
  have h5 := List.mem_enum hp
  rw [h5.2]
  exact List.getElem_mem h5.1

theorem extractLunch_any_billable (md : ModelData) (a : Assignment) (ti : Nat) :
    (extractLunch md a).any (isBillableOf ti) = false := by
  rw [Bool.eq_false_iff]
  intro hany
  rw [List.any_eq_true] at hany
  obtain ⟨e, he, hb⟩ := hany
  obtain ⟨ti2, -, -, rfl⟩ := extractLunch_mem md a e he
  unfold isBillableOf at hb
  rw [Bool.and_eq_true] at hb
  have hb1 : (("IndirectTime" : String) != "IndirectTime") = true := hb.1
  exact absurd hb1 (by decide)

theorem extractABA_any_billable (md : ModelData) (a : Assignment) (ti : Nat) :
    (extractABA md a).any (isBillableOf ti) = true ↔
    ∃ ci tl k, ci < md.numC ∧ tl < (eligOf md ci).length ∧ k < kCount md ci ∧
      a.abaActive ci tl k = true ∧ (eligOf md ci).getD tl 0 = ti := by
  rw [List.any_eq_true]
  constructor
  · rintro ⟨e, he, hb⟩
    unfold extractABA at he
    rw [List.mem_flatMap] at he
    obtain ⟨ci, hci, he⟩ := he
    rw [List.mem_flatMap] at he
    obtain ⟨tl, htl, he⟩ := he
    rw [List.mem_map] at he
    obtain ⟨k, hk, rfl⟩ := he
    rw [List.mem_filter] at hk
    unfold isBillableOf at hb
    rw [Bool.and_eq_true, beq_iff_eq] at hb
    have hb2 : some ((eligOf md ci).getD tl 0) = some ti := hb.2
    injection hb2 with hb3
    exact ⟨ci, tl, k, List.mem_range.mp hci, List.mem_range.mp htl,
      List.mem_range.mp hk.1, hk.2, hb3⟩
  · rintro ⟨ci, tl, k, hci, htl, hk, hact, hti⟩
    have hmem : ({ sessionType := "ABA", clientIdx := some ci,
                   therapistIdx := some ((eligOf md ci).getD tl 0),
                   startSlot := a.abaStart ci tl k,
                   durSlots := a.abaDur ci tl k } : ScheduleEntryE)
        ∈ extractABA md a := by
      unfold extractABA
      rw [List.mem_flatMap]
      refine ⟨ci, List.mem_range.mpr hci, ?_⟩
      rw [List.mem_flatMap]
      refine ⟨tl, List.mem_range.mpr htl, ?_⟩
      rw [List.mem_map]
      exact ⟨k, List.mem_filter.mpr ⟨List.mem_range.mpr hk, hact⟩, rfl⟩
    refine ⟨_, hmem, ?_⟩
    unfold isBillableOf
    rw [Bool.and_eq_true]
    refine ⟨(by decide : (("ABA" : String) != "IndirectTime") = true), ?_⟩
    rw [beq_iff_eq]
    show some ((eligOf md ci).getD tl 0) = some ti
    rw [hti]

theorem billablesAny_aba_iff (md : ModelData) (a : Assignment) (ti : Nat)
    (hnd : ∀ ci, (eligOf md ci).Nodup) :
    ((List.range md.numC).any fun ci =>
      match firstIdx (eligOf md ci) ti with
      | some tl => (List.range (kCount md ci)).any fun k => a.abaActive ci tl k
      | none => false) = true ↔
    ∃ ci tl k, ci < md.numC ∧ tl < (eligOf md ci).length ∧ k < kCount md ci ∧
      a.abaActive ci tl k = true ∧ (eligOf md ci).getD tl 0 = ti := by
  rw [List.any_eq_true]
  constructor
  · rintro ⟨ci, hci, hmatch⟩
    cases hfi : firstIdx (eligOf md ci) ti with
    | none =>
      rw [hfi] at hmatch
      exact absurd (show (false : Bool) = true from hmatch) Bool.false_ne_true
    | some tl =>
      rw [hfi] at hmatch
      have hmatch2 : ((List.range (kCount md ci)).any fun k =>
          a.abaActive ci tl k) = true := hmatch
      rw [List.any_eq_true] at hmatch2
      obtain ⟨k, hk, hact⟩ := hmatch2
      obtain ⟨htl, hget⟩ := firstIdx_some _ _ _ hfi
      exact ⟨ci, tl, k, List.mem_range.mp hci, htl, List.mem_range.mp hk,
        hact, hget⟩
  · rintro ⟨ci, tl, k, hci, htl, hk, hact, hget⟩
    refine ⟨ci, List.mem_range.mpr hci, ?_⟩
    rw [firstIdx_of_getD _ _ _ (hnd ci) htl hget]
    show ((List.range (kCount md ci)).any fun k => a.abaActive ci tl k) = true
    rw [List.any_eq_true]
    exact ⟨k, List.mem_range.mpr hk, hact⟩

theorem range_countP_one_unique {p : Nat → Bool} {n i j : Nat}
    (h : (List.range n).countP p = 1) (hi : i < n) (hj : j < n)
    (hpi : p i = true) (hpj : p j = true) : i = j := by
  rw [List.countP_eq_length_filter] at h
  have hif : i ∈ (List.range n).filter p :=
    List.mem_filter.mpr ⟨List.mem_range.mpr hi, hpi⟩
  have hjf : j ∈ (List.range n).filter p :=
    List.mem_filter.mpr ⟨List.mem_range.mpr hj, hpj⟩
  cases hl : (List.range n).filter p with
  | nil => rw [hl] at hif; cases hif
  | cons x xs =>
    rw [hl] at h hif hjf
    cases xs with
    | nil =>
      have hi2 : i = x := by simpa using hif
      have hj2 : j = x := by simpa using hjf
      rw [hi2, hj2]
    | cons y ys => simp at h

theorem extractAH_any_billable_iff (md : ModelData) (a : Assignment) (ti : Nat)
    (hwf : ∀ e ∈ md.ahEntries, AhWf md.numT e)
    (hexa : ahExactlyOneOk md a = true) :
    (extractAH md a).any (isBillableOf ti) = true ↔
    (md.ahEntries.enum.any fun p =>
      match firstIdx p.2.eligibleTis ti with
      | some idx => a.ahChosen p.1 idx
      | none => false) = true := by
  rw [List.any_eq_true, List.any_eq_true]
  constructor
  · rintro ⟨e, he, hb⟩
    obtain ⟨p, hp, rfl⟩ := mem_extractAH_shape md a e he
    have hpmem : p.2 ∈ md.ahEntries := enum_mem_snd _ p hp
    unfold isBillableOf at hb
    rw [Bool.and_eq_true, beq_iff_eq] at hb
    have hb2 : ahAssigned p.2 a p.1 = some ti := hb.2
    unfold ahAssigned at hb2
    cases hfind : (List.range p.2.eligibleTis.length).find?
        (fun idx => a.ahChosen p.1 idx) with
    | none => rw [hfind] at hb2; cases hb2
    | some idx =>
      rw [hfind] at hb2
      have hb3 : some (p.2.eligibleTis.getD idx 0) = some ti := hb2
      injection hb3 with hb4
      have hchosen := List.find?_some hfind
      have hidxmem := List.mem_of_find?_eq_some hfind
      rw [List.mem_range] at hidxmem
      obtain ⟨-, hnd2, -⟩ := hwf p.2 hpmem
      refine ⟨p, hp, ?_⟩
      rw [firstIdx_of_getD _ _ _ hnd2 hidxmem hb4]
      exact hchosen
  · rintro ⟨p, hp, hmatch⟩
    have hpmem : p.2 ∈ md.ahEntries := enum_mem_snd _ p hp
    cases hfi : firstIdx p.2.eligibleTis ti with
    | none =>
      rw [hfi] at hmatch
      exact absurd (show (false : Bool) = true from hmatch) Bool.false_ne_true
    | some idx0 =>
      rw [hfi] at hmatch
      have hch0 : a.ahChosen p.1 idx0 = true := hmatch
      obtain ⟨hidx0, hget0⟩ := firstIdx_some _ _ _ hfi
      have hemem : ({ sessionType := p.2.sessionType, clientIdx := some p.2.ci,
                      therapistIdx := ahAssigned p.2 a p.1,
                      startSlot := p.2.startSlot,
                      durSlots := p.2.length } : ScheduleEntryE)
          ∈ extractAH md a := by
        unfold extractAH
        rw [List.mem_map]
        exact ⟨p, hp, rfl⟩
      refine ⟨_, hemem, ?_⟩
      unfold isBillableOf
      rw [Bool.and_eq_true]
      refine ⟨?_, ?_⟩
      · rw [bne_iff_ne]
        exact ah_sessionType_ne_lunch md.numT p.2 (hwf p.2 hpmem)
      · rw [beq_iff_eq]
        show ahAssigned p.2 a p.1 = some ti
        unfold ahAssigned
        cases hfind : (List.range p.2.eligibleTis.length).find?
            (fun idx => a.ahChosen p.1 idx) with
        | none =>
          rw [List.find?_eq_none] at hfind
          exact absurd hch0 (hfind idx0 (List.mem_range.mpr hidx0))
        | some idx1 =>
          have hch1 := List.find?_some hfind
          have h1mem := List.mem_of_find?_eq_some hfind
          rw [List.mem_range] at h1mem
          have hex := List.all_eq_true.mp hexa p hp
          have hnotempty : p.2.eligibleTis.isEmpty = false := by
            cases hl : p.2.eligibleTis with
            | nil =>
              rw [hl] at hidx0
              cases hidx0
            | cons z zs => rfl
          rw [hnotempty] at hex

          have hex2 : (List.range p.2.eligibleTis.length).countP
              (fun idx => a.ahChosen p.1 idx) = 1 := by
            simpa using hex
          have heq := range_countP_one_unique hex2 h1mem hidx0 hch1 hch0
          show some (p.2.eligibleTis.getD idx1 0) = some ti
          rw [heq, hget0]

/-- Claim C6 fails as stated on the minute-level lunch window: with
`idealLunchWindowStart = "11:05"` (not on the 15-minute grid),
`time_to_slot` floors to slot 8 = 11:00, and a satisfying hard-phase
solution has therapist `t1` lunching at 11:00 — 5 minutes *before*
`idealLunchWindowStart`. -/
theorem claim_C6_counterexample :
    mkModelData reqLunch5 = some mdLunch5 ∧
    modelSat mdLunch5 true aFull = true ∧
    time_to_minutes reqLunch5.config.idealLunchWindowStart = some 665 ∧
    (∃ e ∈ extractSchedule mdLunch5 aFull, isLunchOf 0 e = true ∧
      e.startSlot = 8 ∧ mdLunch5.opStart + e.startSlot * SLOT_SIZE = 660 ∧
      slot_to_time e.startSlot mdLunch5.opStart = "11:00") ∧
    (660 : Int) < 665 := by
  refine ⟨by decide, by decide, by decide, by decide, by decide⟩

/-- Claim C6, amended: in every solution a therapist has an `IndirectTime`
entry iff they have an ABA or allied-health entry; the lunch entry is
unique, lasts exactly 2 slots = 30 minutes, and its start slot lies in the
computed window `[max(0, time_to_slot(idealLunchWindowStart)),
max(window_start, min(num_slots − 2,
time_to_slot(idealLunchWindowEndForStart)))]` — which quantizes
`idealLunchWindowStart` down to the 15-minute grid, so the lunch can start
up to 14 minutes before the configured minute. -/
theorem claim_C6_amended (req : SolveRequest) (md : ModelData) (a : Assignment)
    (hard : Bool) (hmd : mkModelData req = some md)
    (hsat : modelSat md hard a = true) (ti : Nat) (hti : ti < md.numT) :
    ((extractSchedule md a).any (isLunchOf ti) = true ↔
     (extractSchedule md a).any (isBillableOf ti) = true) ∧
    (extractSchedule md a).countP (isLunchOf ti) ≤ 1 ∧
    (∀ e ∈ extractSchedule md a, isLunchOf ti e = true →
      e.durSlots * SLOT_SIZE = 30 ∧
      md.lunchWindowStart ≤ e.startSlot ∧
      e.startSlot ≤ max md.lunchWindowStart md.lunchWindowEnd) := by
  have hwf := md_ahEntries_wf req md hmd
  have hnd := eligOf_nodup req md hmd
  have hlink := modelSat_lunchLink hsat
  have hdom := modelSat_lunchDom hsat
  have hexa := modelSat_ahExactlyOne hsat
  refine ⟨?_, ?_, ?_⟩
  · unfold extractSchedule
    rw [List.any_append, List.any_append, List.any_append, List.any_append]
    have hA0 : (extractABA md a).any (isLunchOf ti) = false := by
      rw [Bool.eq_false_iff]
      intro hy
      rw [List.any_eq_true] at hy
      obtain ⟨e, he, hc⟩ := hy
      have htype := mem_extractABA_type md a e he
      unfold isLunchOf at hc
      rw [Bool.and_eq_true, beq_iff_eq, htype] at hc
      exact absurd hc.1 (by decide)
    have hAH0 : (extractAH md a).any (isLunchOf ti) = false := by
      rw [Bool.eq_false_iff]
      intro hy
      rw [List.any_eq_true] at hy
      obtain ⟨e, he, hc⟩ := hy
      obtain ⟨p, hp, rfl⟩ := mem_extractAH_shape md a e he
      unfold isLunchOf at hc
      rw [Bool.and_eq_true, beq_iff_eq] at hc
      exact absurd hc.1
        (ah_sessionType_ne_lunch md.numT p.2 (hwf p.2 (enum_mem_snd _ p hp)))
    rw [hA0, hAH0, extractLunch_any_billable md a ti]
    simp only [Bool.false_or, Bool.or_false]
    rw [extractLunch_any_iff md a ti hti]
    have hlk : a.lunchActive ti = billablesAny md a ti := by
      have hb := all_range_true
        (show (List.range md.numT).all
          (fun ti2 => a.lunchActive ti2 == billablesAny md a ti2) = true from hlink)
        ti hti
      exact beq_iff_eq.mp hb
    rw [hlk]
    unfold billablesAny
    rw [Bool.or_eq_true, Bool.or_eq_true]
    constructor
    · rintro (hr | he2)
      · exact Or.inl ((extractABA_any_billable md a ti).mpr
          ((billablesAny_aba_iff md a ti hnd).mp hr))
      · exact Or.inr ((extractAH_any_billable_iff md a ti hwf hexa).mpr he2)
    · rintro (hr | he2)
      · exact Or.inl ((billablesAny_aba_iff md a ti hnd).mpr
          ((extractABA_any_billable md a ti).mp hr))
      · exact Or.inr ((extractAH_any_billable_iff md a ti hwf hexa).mp he2)
  · unfold extractSchedule
    rw [List.countP_append, List.countP_append,
      extractABA_countP_lunch md a ti, extractAH_countP_lunch md a ti hwf]
    simpa using extractLunch_countP_le_one md a ti
  · intro e he hl
    unfold extractSchedule at he
    rcases List.mem_append.mp he with he2 | he3
    · rcases List.mem_append.mp he2 with he4 | he5
      · have htype := mem_extractABA_type md a e he4
        unfold isLunchOf at hl
        rw [Bool.and_eq_true, beq_iff_eq, htype] at hl
        exact absurd hl.1 (by decide)
      · obtain ⟨p, hp, rfl⟩ := mem_extractAH_shape md a e he5
        unfold isLunchOf at hl
        rw [Bool.and_eq_true, beq_iff_eq] at hl
        exact absurd hl.1
          (ah_sessionType_ne_lunch md.numT p.2 (hwf p.2 (enum_mem_snd _ p hp)))
    · obtain ⟨ti2, h2, hact, rfl⟩ := extractLunch_mem md a e he3
      have hd := all_range_true
        (show (List.range md.numT).all (fun ti3 =>
          bLE md.lunchWindowStart (a.lunchStart ti3) &&
          bLE (a.lunchStart ti3) (max md.lunchWindowStart md.lunchWindowEnd)) = true
          from hdom) ti2 h2
      rw [Bool.and_eq_true] at hd
      refine ⟨(by decide : (2 : Int) * SLOT_SIZE = 30), ?_, ?_⟩
      · exact of_decide_eq_true hd.1
      · exact of_decide_eq_true hd.2

/-- Witness for the amended C6 at the concrete full-coverage day,
therapist `t1`. -/
theorem claim_C6_witness :
    ((extractSchedule mdLunch5 aFull).any (isLunchOf 0) = true ↔
     (extractSchedule mdLunch5 aFull).any (isBillableOf 0) = true) ∧
    (extractSchedule mdLunch5 aFull).countP (isLunchOf 0) ≤ 1 ∧
    (∀ e ∈ extractSchedule mdLunch5 aFull, isLunchOf 0 e = true →
      e.durSlots * SLOT_SIZE = 30 ∧
      mdLunch5.lunchWindowStart ≤ e.startSlot ∧
      e.startSlot ≤ max mdLunch5.lunchWindowStart mdLunch5.lunchWindowEnd) :=
  claim_C6_amended reqLunch5 mdLunch5 aFull true (by decide) (by decide) 0
    (by decide)

end Scheduling
